import Mathlib

/-!
# Verification of the ApplyStage insight/report engine

Shallow embedding of the analytics core of `src/backend/server.py`
(a FastAPI job-application tracker): the business-day arithmetic,
the `dashboard/ai-insights` rule engine, the `dashboard/stats`
aggregation, the `dashboard/upcoming-interviews` listing and the
`reports/generate` monthly computations.

Modelling conventions:
* A `datetime` is an integer number of seconds since the Unix epoch
  (all stored datetimes are normalized to UTC by the source).
* A calendar date is an integer number of days since 1970-01-01
  (a Thursday, Python weekday 3).
* Python `timedelta.days` is floor division, i.e. `Int.fdiv`.
* Mongo documents are structures whose optional fields are `Option`s;
  `job.get(k, d)` becomes `Option.getD`.
-/

namespace ApplyStage

/-! ## Date arithmetic (server.py lines 731-733, 857-858) -/

/-- Epoch day of a datetime given in seconds: `dt.date()` as a day number.
Lean's `Int` division `/` is Euclidean division, which coincides with
Python's floor division for the positive divisor 86400. -/
def dayOf (t : Int) : Int := t / 86400

/-- Python `date.weekday()` on an epoch-day number: Monday = 0 .. Sunday = 6.
Day 0 (1970-01-01) is a Thursday, weekday 3. -/
def pyWeekday (d : Int) : Int := (d + 3) % 7

/-- `days_old = (now - date_applied).days` (server.py line 857):
Python `timedelta.days` is the floor of the span in whole days. -/
def daysOld (applied now : Int) : Int := (now - applied) / 86400

/-- The per-job business-day count of server.py line 858:
`sum(1 for i in range(days_old) if (date_applied + timedelta(days=i)).weekday() < 5)`.
`range` of a negative number is empty, hence `Int.toNat`.  Adding whole days
to a datetime advances its date by exactly that many days, so the weekday
tested at step `i` is that of epoch day `dayOf applied + i`. -/
def bizDays (applied now : Int) : Nat :=
  ((List.range (daysOld applied now).toNat).filter
    (fun (i : Nat) => pyWeekday (dayOf applied + (i : Int)) < 5)).length

/-- Spec-side definition, used only for comparison with `bizDays` (claim C1).
The spec reads: "counts calendar days in `[start.date(), end.date()]`
inclusive whose weekday is Monday–Friday (0–4)". -/
def businessDaysBetweenSpec (start stop : Int) : Nat :=
  ((List.range (dayOf stop - dayOf start + 1).toNat).filter
    (fun (i : Nat) => pyWeekday (dayOf start + (i : Int)) < 5)).length

/-! Concrete anchor datetimes for the examples in the spec.
Epoch day 4 = Monday 1970-01-05, day 8 = Friday 1970-01-09,
day 11 = Monday 1970-01-12. -/

/-- Monday 1970-01-05 00:00 UTC, in seconds. -/
def mondaySec : Int := 4 * 86400

/-- Friday 1970-01-09 00:00 UTC, in seconds. -/
def fridaySec : Int := 8 * 86400

/-- Monday 1970-01-12 00:00 UTC, in seconds. -/
def nextMondaySec : Int := 11 * 86400

/-- **C1, counterexample.**  From a Monday to the Friday of the same week
the engine's per-job `biz_days` (server.py line 858) is `4`, not the `5`
predicted by the claim's inclusive-range reading; from a Friday to the
Monday of the next week it is `1`, not `2`.  The loop runs over
`range(days_old)`, a half-open range that never includes the end day. -/
theorem bizDays_ne_inclusive_count :
    bizDays mondaySec fridaySec = 4 ∧ businessDaysBetweenSpec mondaySec fridaySec = 5 ∧
    bizDays fridaySec nextMondaySec = 1 ∧ businessDaysBetweenSpec fridaySec nextMondaySec = 2 ∧
    bizDays mondaySec fridaySec ≠ businessDaysBetweenSpec mondaySec fridaySec := by
  refine ⟨?_, ?_, ?_, ?_, ?_⟩ <;> decide

theorem ediv_add_mul_self (a d : Int) : (a + d * 86400) / 86400 = a / 86400 + d :=
  Int.add_mul_ediv_right a d (by decide)

/-- **C1, amended.**  For `start ≤ stop` a whole number of days apart
(as in the spec's Monday-to-Friday examples), the inclusive business-day
count of the spec exceeds the engine's `biz_days` by exactly one when the
end date falls on a weekday: the engine counts the half-open range
`[start.date(), stop.date())`. -/
theorem businessDaysSpec_eq_bizDays_add_end (start stop : Int)
    (hle : start ≤ stop) (hmod : (stop - start) % 86400 = 0) :
    businessDaysBetweenSpec start stop =
      bizDays start stop + (if pyWeekday (dayOf stop) < 5 then 1 else 0) := by
  obtain ⟨d, hd⟩ : ∃ d : Int, stop - start = d * 86400 := by
    obtain ⟨d, hd⟩ := Int.dvd_of_emod_eq_zero hmod
    exact ⟨d, by omega⟩
  have hdnn : 0 ≤ d := by nlinarith
  have hstop : stop = start + d * 86400 := by omega
  have hdayOf : dayOf stop = dayOf start + d := by
    rw [hstop]; exact ediv_add_mul_self start d
  have hdaysOld : daysOld start stop = d := by
    unfold daysOld
    rw [hd]
    exact Int.mul_ediv_cancel _ (by decide)
  have hdiff : (dayOf stop - dayOf start + 1).toNat = d.toNat + 1 := by
    rw [hdayOf]; omega
  unfold businessDaysBetweenSpec bizDays
  rw [hdiff, hdaysOld, List.range_succ, List.filter_append, List.length_append]
  congr 1
  simp only [List.filter_cons, List.filter_nil]
  have hcast : ((d.toNat : Int)) = d := Int.toNat_of_nonneg hdnn
  rw [hcast, ← hdayOf]
  by_cases h5 : pyWeekday (dayOf stop) < 5 <;> simp [h5]

/-- **C1, witness** for the amended theorem at the Monday-to-Friday span. -/
theorem businessDaysSpec_eq_bizDays_add_end_witness :
    businessDaysBetweenSpec mondaySec fridaySec =
      bizDays mondaySec fridaySec + (if pyWeekday (dayOf fridaySec) < 5 then 1 else 0) :=
  businessDaysSpec_eq_bizDays_add_end mondaySec fridaySec (by decide) (by decide)

/-! ## Calendar dates and loose date parsing (server.py lines 666-691, 917-937)

`datetime(year, month, day)` validates `1 <= year <= 9999` (MINYEAR/MAXYEAR),
`1 <= month <= 12`, `1 <= day <= days in month`, raising `ValueError`
otherwise; we model the constructor as a validity test plus conversion of
the civil date to an epoch-day number (standard era-based algorithm). -/

/-- Gregorian leap-year rule. -/
def isLeap (y : Nat) : Bool := y % 4 == 0 && (y % 100 != 0 || y % 400 == 0)

/-- Length of a month, February depending on leap years. -/
def daysInMonth (y m : Nat) : Nat :=
  if m = 2 then (if isLeap y then 29 else 28)
  else if m = 4 ∨ m = 6 ∨ m = 9 ∨ m = 11 then 30
  else 31

/-- `datetime(year, month, day)` succeeds exactly on these triples. -/
def validYMD (y m d : Nat) : Bool :=
  1 ≤ y && y ≤ 9999 && 1 ≤ m && m ≤ 12 && 1 ≤ d && d ≤ daysInMonth y m

/-- Civil date to epoch-day number (days since 1970-01-01), era-based
algorithm; agrees with Python `date(y, m, d) - date(1970, 1, 1)`. -/
def daysFromCivil (y m d : Nat) : Int :=
  let yy : Int := if m ≤ 2 then (y : Int) - 1 else (y : Int)
  let era : Int := yy / 400
  let yoe : Int := yy - era * 400
  let mp : Int := if 3 ≤ m then (m : Int) - 3 else (m : Int) + 9
  let doy : Int := (153 * mp + 2) / 5 + (d : Int) - 1
  let doe : Int := yoe * 365 + yoe / 4 - yoe / 100 + doy
  era * 146097 + doe - 719468

example : daysFromCivil 1970 1 1 = 0 := by decide
example : daysFromCivil 2024 3 5 = 19787 := by decide
example : daysFromCivil 2024 1 1 = 19723 := by decide
example : daysFromCivil 2000 2 29 = 11016 := by decide
example : pyWeekday (daysFromCivil 1970 1 5) = 0 := by decide

/-- `schedule_str.replace('/', '-').split("-")` (server.py line 670):
splitting on either separator, preserving empty segments exactly as
Python `str.split` with an explicit separator does. -/
def splitSeps : List Char → List (List Char)
  | [] => [[]]
  | c :: rest =>
    let r := splitSeps rest
    if c = '-' ∨ c = '/' then [] :: r
    else
      match r with
      | [] => [[c]]
      | seg :: segs => (c :: seg) :: segs

/-- Python `int(part)` on a split segment, modelled for plain digit
strings: `None` when empty or containing a non-digit (where `int()`
raises `ValueError`, caught by the source's `except` clause). -/
def digitsToNat? (cs : List Char) : Option Nat :=
  if cs = [] then none
  else
    cs.foldl
      (fun acc c =>
        match acc with
        | none => none
        | some n => if c.isDigit then some (n * 10 + (c.toNat - 48)) else none)
      (some 0)

/-- The schedule-string parser shared by `get_upcoming_interviews`
(server.py lines 669-676) and `get_ai_insights` (lines 918-924):
normalize `/` to `-`, split, require exactly three numeric parts
`month-day-year`, map two-digit years into the 2000s, and build the
date, failing (None) where `int()` or `datetime()` would raise. -/
def parseLooseDate (s : String) : Option Int :=
  match splitSeps s.data with
  | [ms, ds, ys] =>
    match digitsToNat? ms, digitsToNat? ds, digitsToNat? ys with
    | some m, some d, some y0 =>
      let y := if y0 < 100 then y0 + 2000 else y0
      if validYMD y m d then some (daysFromCivil y m d) else none
    | _, _, _ => none
  | _ => none

example : parseLooseDate "3/5/24" = some 19787 := by decide
example : parseLooseDate "13/45/99" = none := by decide
example : parseLooseDate "12-31-2099" = some 47481 := by decide
example : parseLooseDate "3/5" = none := by decide

/-! ## The `dashboard/upcoming-interviews` endpoint (server.py lines 650-696) -/

/-- A job document as fetched for the upcoming-interviews listing.
For the two schedule fields the outer `Option` is field presence in the
document and the inner `Option` distinguishes a stored JSON `null` from a
string, because the Mongo query can admit `null` values (see
`upcomingFieldPass`). -/
structure UJob where
  job_id : Option String := none
  company_name : Option String := none
  position : Option String := none
  upcoming_stage : Option (Option String) := none
  upcoming_schedule : Option (Option String) := none
  status : Option String := none
deriving Repr, DecidableEq

/-- The Mongo filter of server.py lines 656-657.  The Python dict literal
`{"$exists": True, "$ne": None, "$ne": ""}` repeats the `"$ne"` key, and a
later duplicate key overwrites the earlier one, so the executed query is
`{"$exists": True, "$ne": ""}`: the field must be present and differ from
the empty string — a stored `null` passes. -/
def upcomingFieldPass : Option (Option String) → Bool
  | none => false
  | some none => true
  | some (some s) => s != ""

/-- One row of the upcoming-interviews response (server.py lines 680-689).
`schedule_day` stands for the parsed date that line 686 formats as
`"%b %d, %Y"`; `stage` is `upcoming_stage` verbatim, which can be `null`. -/
structure UpcomingEntry where
  job_id : Option String
  company_name : Option String
  position : Option String
  stage : Option String
  status : String
  schedule_day : Int
  schedule_raw : String
  days_until : Int
deriving Repr, DecidableEq

/-- The loop body of server.py lines 665-691 for one fetched job:
read the schedule string (`dict.get` with default `""`; a stored `null`
is falsy and skipped), parse it, and keep dates that are today or later. -/
def upcomingEntryOf (today : Int) (j : UJob) : Option UpcomingEntry :=
  match j.upcoming_schedule with
  | some (some s) =>
    if s = "" then none
    else
      match parseLooseDate s with
      | some day =>
        if today ≤ day then
          some { job_id := j.job_id, company_name := j.company_name,
                 position := j.position,
                 stage := (j.upcoming_stage.getD none),
                 status := j.status.getD "applied",
                 schedule_day := day, schedule_raw := s,
                 days_until := day - today }
        else none
      | none => none
  | _ => none

/-- Ordering used by line 694: `upcoming.sort(key=lambda x: x.get("days_until", 0))`. -/
def entryLE (a b : UpcomingEntry) : Prop := a.days_until ≤ b.days_until

instance : DecidableRel entryLE := fun a b => inferInstanceAs (Decidable (a.days_until ≤ b.days_until))

instance : IsTotal UpcomingEntry entryLE := ⟨fun a b => le_total a.days_until b.days_until⟩

instance : IsTrans UpcomingEntry entryLE := ⟨fun _ _ _ => le_trans⟩

/-- `GET /dashboard/upcoming-interviews` (server.py lines 650-696):
query filter (with `.to_list(100)` fetch cap), per-job parsing and
filtering, then a stable ascending sort on `days_until` (Python
`list.sort` is stable; modelled by `List.insertionSort`). -/
def getUpcomingInterviews (jobs : List UJob) (today : Int) : List UpcomingEntry :=
  let fetched := (jobs.filter (fun j =>
    upcomingFieldPass j.upcoming_stage && upcomingFieldPass j.upcoming_schedule)).take 100
  let upcoming := fetched.filterMap (upcomingEntryOf today)
  upcoming.insertionSort entryLE

/-- A job document whose `upcoming_stage` field holds JSON `null` while a
valid future schedule is present. -/
def nullStageJob : UJob :=
  { upcoming_stage := some none, upcoming_schedule := some (some "3/5/24") }

/-- **C7, counterexample.**  On 2024-01-01 (epoch day 19723) a job whose
`upcoming_stage` is a stored `null` — not a non-empty stage — is returned
by the listing, because the duplicated `"$ne"` key in the Mongo query dict
(server.py line 656) drops the `$ne: None` condition.  The claim that the
endpoint returns exactly the jobs with non-empty `upcoming_stage` fails. -/
theorem getUpcomingInterviews_nullStage :
    getUpcomingInterviews [nullStageJob] 19723 =
      [{ job_id := none, company_name := none, position := none, stage := none,
         status := "applied", schedule_day := 19787, schedule_raw := "3/5/24",
         days_until := 64 }] ∧
    (getUpcomingInterviews [nullStageJob] 19723).all (fun e => e.stage = none) := by
  constructor <;> decide

/-- Unfolding of the per-job step of the upcoming-interviews loop. -/
theorem upcomingEntryOf_eq_some {today : Int} {j : UJob} {e : UpcomingEntry} :
    upcomingEntryOf today j = some e ↔
      ∃ s day, j.upcoming_schedule = some (some s) ∧ s ≠ "" ∧
        parseLooseDate s = some day ∧ today ≤ day ∧
        e = { job_id := j.job_id, company_name := j.company_name,
              position := j.position, stage := j.upcoming_stage.getD none,
              status := j.status.getD "applied",
              schedule_day := day, schedule_raw := s, days_until := day - today } := by
  unfold upcomingEntryOf
  constructor
  · intro h
    match hs : j.upcoming_schedule with
    | none => simp [hs] at h
    | some none => simp [hs] at h
    | some (some s) =>
      simp only [hs] at h
      by_cases hempty : s = ""
      · rw [if_pos hempty] at h; exact absurd h (by simp)
      · rw [if_neg hempty] at h
        match hp : parseLooseDate s with
        | none => simp [hp] at h
        | some day =>
          simp only [hp] at h
          by_cases hfut : today ≤ day
          · rw [if_pos hfut] at h
            exact ⟨s, day, rfl, hempty, hp, hfut, (Option.some_inj.mp h).symm⟩
          · rw [if_neg hfut] at h; exact absurd h (by simp)
  · rintro ⟨s, day, hs, hempty, hp, hfut, he⟩
    simp only [hs, hp, if_neg hempty, if_pos hfut, he]

/-- **C7, amended.**  For at most 100 stored jobs (the fetch cap), the
listing returns exactly the entries built from jobs passing the query
filter (`upcoming_stage` present and not `""` — possibly `null` — and
`upcoming_schedule` present and not `""`) whose schedule string parses to
a date on or after today; each entry carries
`days_until = schedule_date - today`, and the output is sorted ascending
by `days_until`.  Unparseable or past dates are dropped, never errors. -/
theorem getUpcomingInterviews_spec (jobs : List UJob) (today : Int)
    (hlen : jobs.length ≤ 100) :
    (∀ e, e ∈ getUpcomingInterviews jobs today ↔
      ∃ j ∈ jobs,
        upcomingFieldPass j.upcoming_stage = true ∧
        upcomingFieldPass j.upcoming_schedule = true ∧
        ∃ s day, j.upcoming_schedule = some (some s) ∧
          parseLooseDate s = some day ∧ today ≤ day ∧
          e = { job_id := j.job_id, company_name := j.company_name,
                position := j.position, stage := j.upcoming_stage.getD none,
                status := j.status.getD "applied",
                schedule_day := day, schedule_raw := s,
                days_until := day - today }) ∧
    (getUpcomingInterviews jobs today).Sorted entryLE ∧
    (∀ e ∈ getUpcomingInterviews jobs today,
      e.days_until = e.schedule_day - today ∧ today ≤ e.schedule_day) := by
  have htake : (jobs.filter (fun j =>
      upcomingFieldPass j.upcoming_stage && upcomingFieldPass j.upcoming_schedule)).take 100 =
      jobs.filter (fun j =>
      upcomingFieldPass j.upcoming_stage && upcomingFieldPass j.upcoming_schedule) :=
    List.take_of_length_le (le_trans (List.length_filter_le _ _) hlen)
  refine ⟨?_, ?_, ?_⟩
  · intro e
    unfold getUpcomingInterviews
    rw [htake, List.mem_insertionSort, List.mem_filterMap]
    constructor
    · rintro ⟨j, hj, hee⟩
      rw [List.mem_filter] at hj
      obtain ⟨hjm, hpass⟩ := hj
      rw [Bool.and_eq_true] at hpass
      obtain ⟨s, day, hs, hemp, hp, hfut, he⟩ := upcomingEntryOf_eq_some.mp hee
      exact ⟨j, hjm, hpass.1, hpass.2, s, day, hs, hp, hfut, he⟩
    · rintro ⟨j, hjm, hst, hsc, s, day, hs, hp, hfut, he⟩
      refine ⟨j, List.mem_filter.mpr ⟨hjm, by rw [Bool.and_eq_true]; exact ⟨hst, hsc⟩⟩, ?_⟩
      have hemp : s ≠ "" := by
        intro hcon
        rw [hs, hcon] at hsc
        exact absurd hsc (by decide)
      exact upcomingEntryOf_eq_some.mpr ⟨s, day, hs, hemp, hp, hfut, he⟩
  · exact List.sorted_insertionSort entryLE _
  · intro e he
    unfold getUpcomingInterviews at he
    rw [htake, List.mem_insertionSort, List.mem_filterMap] at he
    obtain ⟨j, _, hee⟩ := he
    obtain ⟨s, day, _, _, _, hfut, heq⟩ := upcomingEntryOf_eq_some.mp hee
    subst heq
    exact ⟨rfl, hfut⟩

/-- **C7, witness** for the amended characterization: one concrete job with
a parseable future schedule is returned with the right `days_until`, and
one with an unparseable schedule is dropped. -/
theorem getUpcomingInterviews_spec_witness :
    ([(⟨some "j1", some "Acme", some "Dev", some (some "phone_screen"),
        some (some "3/5/24"), some "applied"⟩ : UJob)].length ≤ 100) ∧
    (⟨some "j1", some "Acme", some "Dev", some "phone_screen", "applied",
      19787, "3/5/24", 64⟩ : UpcomingEntry) ∈
      getUpcomingInterviews
        [⟨some "j1", some "Acme", some "Dev", some (some "phone_screen"),
          some (some "3/5/24"), some "applied"⟩] 19723 := by
  refine ⟨by decide, ?_⟩
  exact (And.left (getUpcomingInterviews_spec
    [⟨some "j1", some "Acme", some "Dev", some (some "phone_screen"),
      some (some "3/5/24"), some "applied"⟩] 19723 (by decide)) _).mpr
    ⟨_, List.mem_singleton_self _, by decide, by decide, "3/5/24", 19787,
      rfl, by decide, by decide, by decide⟩

/-! ## The insight engine: `GET /dashboard/ai-insights` (server.py lines 698-1132)

Texts: the checked-in source file's string literals are double-encoded
UTF-8; the texts below use the decoded characters, with `\x27` escapes for
apostrophes.  Python `f"{x:.0f}"` on an average is modelled as
round-half-even of the exact rational (`intRoundHalfEven`). -/

/-- A job document as fetched for the insight engine (projection of
server.py lines 709-727).  Datetime-valued fields are pre-normalized
to UTC seconds (the source parses ISO strings in place). -/
structure IJob where
  status : Option String := none
  company_name : Option String := none
  position : Option String := none
  date_applied : Option Int := none
  created_at : Option Int := none
  follow_up_days : Option Int := none
  is_priority : Bool := false
  upcoming_stage : Option String := none
  upcoming_schedule : Option String := none
  recruiter_email : Option String := none
deriving Repr, DecidableEq

/-- Python truthiness of an optional string field (`None` and `""` falsy). -/
def truthy : Option String → Bool
  | none => false
  | some s => s != ""

/-- `all_stages` (server.py lines 747-749). -/
def allStages : List String :=
  ["applied", "recruiter_screening", "phone_screen", "coding_round_1",
   "coding_round_2", "system_design", "behavioural", "hiring_manager",
   "final_round", "offer", "rejected", "ghosted"]

/-- `stage_order.get(status, 0)` (server.py lines 751, 887): index into
`all_stages`, defaulting to 0 for unknown statuses. -/
def stageOrder (s : String) : Nat := (allStages.indexOf? s).getD 0

/-- `stage_coaching` (server.py lines 755-836): stage name, tip, checklist. -/
def stageCoaching : List (String × String × List String) :=
  [("recruiter_screening",
    "Focus on your elevator pitch and salary expectations",
    ["Prepare 60-second career summary",
     "Research company culture and values",
     "Know your salary range expectations",
     "Prepare questions about role and team",
     "Review job description key requirements"]),
   ("phone_screen",
    "Prepare concise answers about your background and motivation",
    ["Review your resume highlights",
     "Prepare \x27why this company\x27 answer",
     "Research recent company news",
     "Have specific examples ready",
     "Prepare thoughtful questions"]),
   ("coding_round_1",
    "Practice problem-solving approaches and think aloud",
    ["Review common data structures (arrays, trees, graphs)",
     "Practice explaining your thought process",
     "Review Big O complexity analysis",
     "Practice on LeetCode medium problems",
     "Prepare questions about engineering culture"]),
   ("coding_round_2",
    "Review advanced algorithms and optimization techniques",
    ["Review dynamic programming patterns",
     "Practice graph algorithms (BFS, DFS, Dijkstra)",
     "Review advanced tree operations",
     "Practice time/space optimization",
     "Prepare to discuss past technical projects"]),
   ("system_design",
    "Practice designing scalable systems with clear trade-offs",
    ["Review scalability patterns (sharding, caching)",
     "Study company\x27s tech stack and architecture",
     "Practice drawing system diagrams",
     "Prepare to discuss CAP theorem trade-offs",
     "Review load balancing and database design"]),
   ("behavioural",
    "Prepare 5-7 STAR stories covering leadership and challenges",
    ["Prepare STAR stories for leadership",
     "Prepare conflict resolution examples",
     "Research hiring manager on LinkedIn",
     "Practice stories about failures and learnings",
     "Align examples with company values"]),
   ("hiring_manager",
    "Research the team\x27s recent projects and prepare questions",
    ["Research manager\x27s background and team",
     "Prepare questions about team dynamics",
     "Review company\x27s recent product launches",
     "Prepare to discuss career goals",
     "Research company earnings/growth if public"]),
   ("final_round",
    "Align your goals with company mission, discuss compensation",
    ["Research total compensation benchmarks",
     "Prepare negotiation talking points",
     "Review company mission and values",
     "Prepare 30-60-90 day plan",
     "Have questions about growth opportunities"])]

/-- `coaching_stage in stage_coaching` lookup of the `tip` entry. -/
def coachingTip? (stage : String) : Option String :=
  (stageCoaching.find? (fun e => e.1 = stage)).map (fun e => e.2.1)

/-- `stage_coaching.get(stage, {}).get('checklist', [])` (line 934). -/
def coachingChecklist (stage : String) : List String :=
  ((stageCoaching.find? (fun e => e.1 = stage)).map (fun e => e.2.2)).getD []

/-- An offer row (server.py lines 874-878). -/
structure OfferRec where
  company : String
  position : String
  days_to_offer : Int
deriving Repr, DecidableEq

/-- A ghosted/rejected row (server.py lines 869, 883). -/
structure GhostRec where
  company : String
  position : String
deriving Repr, DecidableEq

/-- An `upcoming_interviews` row (server.py lines 929-935). -/
structure UpCoach where
  company : String
  stage : String
  days_until : Int
  is_priority : Bool
  checklist : List String
deriving Repr, DecidableEq

/-- A `follow_ups_needed` row (server.py lines 949-957). -/
structure FollowNeed where
  company : String
  status : String
  overdue_days : Int
  biz_days : Nat
  is_priority : Bool
  urgency : String
  recruiter_email : String
deriving Repr, DecidableEq

/-- A `company_data` row (server.py lines 893-904). -/
structure CompanyData where
  company : String
  positions : List String
  status : String
  is_priority : Bool
  coaching_tips : List String
  upcoming_stage : Option String
  upcoming_schedule : Option String
  biz_days : Nat
  stage_idx : Nat
deriving Repr, DecidableEq

/-- Accumulator of the per-job loop (server.py lines 736-752). -/
structure EngineState where
  stageCounts : String → Nat
  followUps : List FollowNeed
  companyData : List CompanyData
  stageSuccess : List (String × Nat)
  upcoming : List UpCoach
  weeklyApplied : Nat
  weeklyAdvanced : Nat
  weeklyInterviews : Nat
  offers : List OfferRec
  ghosted : List GhostRec
  rejected : List GhostRec

/-- Initial accumulator. -/
def initState : EngineState :=
  { stageCounts := fun _ => 0, followUps := [], companyData := [],
    stageSuccess := [], upcoming := [], weeklyApplied := 0,
    weeklyAdvanced := 0, weeklyInterviews := 0, offers := [],
    ghosted := [], rejected := [] }

/-- `stage_success_count[s] = stage_success_count.get(s, 0) + 1` on an
insertion-ordered dict (server.py line 890). -/
def bumpAssoc (l : List (String × Nat)) (k : String) : List (String × Nat) :=
  if l.any (fun e => e.1 = k) then
    l.map (fun e => if e.1 = k then (e.1, e.2 + 1) else e)
  else l ++ [(k, 1)]

/-- The company-row mutations of server.py lines 906-914, applied after
the row exists: append the position, raise status/stage on a strictly
higher stage index, and append the coaching tip when produced. -/
def updateCD (c : CompanyData) (status position : String) (stageIdx : Nat)
    (tip : Option String) : CompanyData :=
  let c := { c with positions := c.positions ++ [position] }
  let c := if c.stage_idx < stageIdx then { c with status := status, stage_idx := stageIdx } else c
  match tip with
  | some t => { c with coaching_tips := c.coaching_tips ++ [t] }
  | none => c

/-- `status = job.get("status", "applied")` (server.py line 840). -/
def effStatus (j : IJob) : String := j.status.getD "applied"

/-- `date_applied = job.get("date_applied") or job.get("created_at")`
(line 851; datetimes are always truthy). -/
def anchorOf (j : IJob) : Option Int := j.date_applied <|> j.created_at

/-- `days_old` for a job (lines 857, 864). -/
def daysOldOf (now : Int) (j : IJob) : Int :=
  match anchorOf j with
  | some t => daysOld t now
  | none => 0

/-- `biz_days` for a job (lines 858, 865). -/
def bizDaysOf (now : Int) (j : IJob) : Nat :=
  match anchorOf j with
  | some t => bizDays t now
  | none => 0

/-- Lines 840-862 of the loop body: stage counts and this-week applied
tracking, executed before any `continue`. -/
def stepCounts (now : Int) (st : EngineState) (j : IJob) : EngineState :=
  let status := effStatus j
  let st := if status ∈ allStages then
      { st with stageCounts := fun k => if k = status then st.stageCounts k + 1 else st.stageCounts k }
    else st
  match anchorOf j with
  | some t =>
    if dayOf now - pyWeekday (dayOf now) ≤ dayOf t then
      { st with weeklyApplied := st.weeklyApplied + 1 }
    else st
  | none => st

/-- Lines 886-890: credit every earlier stage for a status at index `>= 3`. -/
def stepSuccess (st : EngineState) (j : IJob) : EngineState :=
  let stageIdx := stageOrder (effStatus j)
  if 3 ≤ stageIdx then
    { st with stageSuccess := (allStages.take stageIdx).foldl bumpAssoc st.stageSuccess }
  else st

/-- Lines 892-914: the consolidated `company_data` upsert and the
coaching-tip append for priority jobs. -/
def stepCompany (now : Int) (st : EngineState) (j : IJob) : EngineState :=
  let status := effStatus j
  let company := j.company_name.getD "Unknown"
  let coachingStage := if truthy j.upcoming_stage then j.upcoming_stage.getD "" else status
  let tip? := if j.is_priority then coachingTip? coachingStage else none
  if st.companyData.any (fun c => c.company = company) then
    { st with companyData := st.companyData.map (fun c =>
        if c.company = company then updateCD c status (j.position.getD "Position") (stageOrder status) tip? else c) }
  else
    { st with companyData := st.companyData ++
        [updateCD ⟨company, [], status, j.is_priority, [], j.upcoming_stage,
                   j.upcoming_schedule, bizDaysOf now j, stageOrder status⟩
          status (j.position.getD "Position") (stageOrder status) tip?] }

/-- Lines 916-937: upcoming-interview tracking with checklist. -/
def stepUpcoming (now : Int) (st : EngineState) (j : IJob) : EngineState :=
  if truthy j.upcoming_stage && truthy j.upcoming_schedule then
    match parseLooseDate (j.upcoming_schedule.getD "") with
    | some day =>
      if dayOf now ≤ day then
        let du := day - dayOf now
        { st with
          weeklyInterviews := st.weeklyInterviews + (if du ≤ 7 then 1 else 0),
          upcoming := st.upcoming ++
            [⟨j.company_name.getD "Unknown", j.upcoming_stage.getD "", du, j.is_priority,
              coachingChecklist (j.upcoming_stage.getD "")⟩] }
      else st
    | none => st
  else st

/-- Lines 939-941: count stages past recruiter screening as advancing. -/
def stepAdvanced (st : EngineState) (j : IJob) : EngineState :=
  if 2 ≤ stageOrder (effStatus j) then { st with weeklyAdvanced := st.weeklyAdvanced + 1 } else st

/-- Lines 943-957: overdue follow-up detection with urgency. -/
def stepFollowUp (now : Int) (st : EngineState) (j : IJob) : EngineState :=
  let status := effStatus j
  match j.follow_up_days with
  | some f =>
    if f ≠ 0 ∧ status ∉ ["offer", "rejected", "ghosted"] ∧ f ≤ daysOldOf now j then
      { st with followUps := st.followUps ++
          [⟨j.company_name.getD "Unknown", status, daysOldOf now j - f, bizDaysOf now j,
            j.is_priority,
            (if j.is_priority then "critical"
             else if status = "applied" ∨ status = "recruiter_screening" then "high"
             else "medium"),
            j.recruiter_email.getD ""⟩] }
    else st
  | none => st

/-- One iteration of the per-job loop of server.py lines 839-957: the
common prefix, then the three `continue` branches for terminal statuses
(lines 867-884), then the remaining steps in program order. -/
def processJob (now : Int) (st : EngineState) (j : IJob) : EngineState :=
  let status := effStatus j
  let company := j.company_name.getD "Unknown"
  let position := j.position.getD "Position"
  let st := stepCounts now st j
  if status = "ghosted" then
    { st with ghosted := st.ghosted ++ [⟨company, position⟩] }
  else if status = "offer" then
    { st with offers := st.offers ++ [⟨company, position, daysOldOf now j⟩] }
  else if status = "rejected" ∧ daysOldOf now j ≤ 14 then
    { st with rejected := st.rejected ++ [⟨company, position⟩] }
  else
    stepFollowUp now (stepAdvanced (stepUpcoming now (stepCompany now (stepSuccess st j) j) j) j) j

/-! ### Rule evaluation (server.py lines 959-1131) -/

/-- Character-level worker for Python `str.title()`. -/
def titleGo : List Char → Bool → List Char
  | [], _ => []
  | c :: rest, startWord =>
    (if c.isAlpha then (if startWord then c.toUpper else c.toLower) else c) ::
      titleGo rest (!c.isAlpha)

/-- Python `str.title()`: uppercase a letter that follows a non-letter,
lowercase the other letters. -/
def titleCase (s : String) : String := ⟨titleGo s.data true⟩

/-- Python `.replace('_', ' ')` for the stage labels. -/
def underscoreToSpace (s : String) : String :=
  ⟨s.data.map (fun c => if c = '_' then ' ' else c)⟩

/-- `status.replace('_', ' ').title()` (server.py lines 991, 1024, 1094). -/
def stageLabel (s : String) : String := titleCase (underscoreToSpace s)

/-- Round-half-even of the fraction `a / b` (for `b > 0`), the rounding of
Python's `round` and `format` on floats. -/
def intRoundHalfEven (a b : Int) : Int :=
  let q := a / b
  let r := a - q * b
  if 2 * r < b then q
  else if b < 2 * r then q + 1
  else if q % 2 = 0 then q else q + 1

/-- `'s' if n > 1 else ''`. -/
def plural (n : Nat) : String := if 1 < n then "s" else ""

/-- An insight dict (`{icon, color, text, type, priority}` plus the
`company` key that only the coaching rule adds); `priority` is `none`
once stripped from the response. -/
structure Insight where
  icon : String
  color : String
  text : String
  type : String
  company : Option String := none
  priority : Option Nat := none
deriving Repr, DecidableEq

/-- Rule 0 (server.py lines 964-974): today's interviews. -/
def rule0 (st : EngineState) : List Insight :=
  let todays := st.upcoming.filter (fun i => i.days_until = 0)
  if todays.isEmpty then []
  else
    [{ icon := "alert-circle", color := "#EF4444",
       text := "🎯 TODAY: Interview" ++ plural todays.length ++ " at " ++
         String.intercalate ", " ((todays.take 2).map (fun i => i.company)) ++
         "—you\x27ve got this!",
       type := "urgent", priority := some 0 }]

/-- Rule 1 (server.py lines 976-985): offers received. -/
def rule1 (st : EngineState) : List Insight :=
  if st.offers.isEmpty then []
  else
    let avg := intRoundHalfEven ((st.offers.map (fun o => o.days_to_offer)).sum) st.offers.length
    [{ icon := "trophy", color := "#22C55E",
       text := "🎉 " ++ toString st.offers.length ++ " offer" ++ plural st.offers.length ++
         " received! Your average time-to-offer: " ++ toString avg ++
         " days. Consider negotiating—73% of employers expect it.",
       type := "celebration", priority := some 1 }]

/-- Python `max(items, key=...)` over dict items in insertion order: keep
the first entry with the (strictly) greatest value. -/
def maxByVal : List (String × Nat) → Option (String × Nat)
  | [] => none
  | e :: rest => some (rest.foldl (fun best x => if best.2 < x.2 then x else best) e)

/-- The stage-pattern insight for the winning `(stage, count)` entry
(server.py lines 992-998). -/
def mkPattern (best : String × Nat) : Insight :=
  { icon := "trending-up", color := "#10B981",
    text := "💪 Pattern detected: " ++ stageLabel best.1 ++
      " appears to be your strongest stage with " ++ toString best.2 ++
      " successful progressions. Keep leveraging this strength!",
    type := "pattern", priority := some 2 }

/-- Rule 2 (server.py lines 987-998): strongest-stage pattern, emitted
when the dict is non-empty and the maximal count is at least 2. -/
def rule2 (st : EngineState) : List Insight :=
  match maxByVal st.stageSuccess with
  | none => []
  | some best => if 2 ≤ best.2 then [mkPattern best] else []

/-- Rule 3 (server.py lines 1000-1014): weekly momentum. -/
def rule3 (st : EngineState) : List Insight :=
  if 0 < st.weeklyApplied ∨ 0 < st.weeklyInterviews then
    let parts :=
      (if 0 < st.weeklyApplied then
        [toString st.weeklyApplied ++ " new application" ++ plural st.weeklyApplied] else []) ++
      (if 0 < st.weeklyInterviews then
        [toString st.weeklyInterviews ++ " interview" ++ plural st.weeklyInterviews ++ " scheduled"] else [])
    [{ icon := "flash", color := "#8B5CF6",
       text := "📈 This week\x27s momentum: " ++ String.intercalate ", " parts ++ ". Great progress!",
       type := "momentum", priority := some 3 }]
  else []

/-- Ordering of `sorted(..., key=lambda x: -x['stage_idx'])` (line 1019):
descending stage index, stable. -/
def cdLE (a b : CompanyData) : Prop := b.stage_idx ≤ a.stage_idx

instance : DecidableRel cdLE := fun a b => inferInstanceAs (Decidable (b.stage_idx ≤ a.stage_idx))

instance : IsTotal CompanyData cdLE := ⟨fun a b => le_total b.stage_idx a.stage_idx⟩

instance : IsTrans CompanyData cdLE := ⟨fun _ _ _ h1 h2 => le_trans h2 h1⟩

/-- Rule 4 (server.py lines 1016-1032): up to three priority-company
coaching insights. -/
def rule4 (st : EngineState) : List Insight :=
  let priorityCompanies :=
    ((st.companyData.filter (fun c => c.is_priority && !c.coaching_tips.isEmpty)).insertionSort
      cdLE).take 3
  priorityCompanies.map (fun c =>
    { icon := "star", color := "#F59E0B",
      text := "⭐ " ++ c.company ++ " (" ++ stageLabel c.status ++ "): " ++
        String.intercalate " • " (c.coaching_tips.take 2),
      type := "coaching", company := some c.company, priority := some 4 })

/-- `reflection_prompts` (server.py lines 1036-1042). -/
def reflectionPrompts : List String :=
  ["📝 Weekly reflection: What went well this week? What could improve in your interview approach?",
   "🤔 Reflection moment: Which company excites you most and why? Let that energy show in interviews!",
   "💭 Time to reflect: What new skill or insight did you gain from recent interviews?",
   "🎯 Weekly check-in: Are you applying to roles that align with your career goals?",
   "✨ Reflect and grow: What feedback have you received? How can you apply it?"]

/-- `encouraging_messages` (server.py lines 1055-1059); the first entry
interpolates the number of recent rejections. -/
def encouragingMessages (nRejected : Nat) : List String :=
  ["💪 " ++ toString nRejected ++ " recent rejection" ++ plural nRejected ++
     "—but you\x27re still in the game! Each \x27no\x27 refines your path to the right \x27yes\x27.",
   "🌟 Rejection is just redirection. Your skills are valuable—the right opportunity is coming.",
   "🚀 The best candidates face rejection too. Stay focused on what you can control and keep moving forward!"]

/-- The injectable random source of the spec: a stream of draw indices.
`random.choice(pool)` consumes one index and selects modulo the pool
size (pools here are the fixed non-empty prompt lists). -/
def randChoice (pool : List String) (rs : List Nat) : String × List Nat :=
  match rs with
  | [] => (pool.headD "", [])
  | i :: rest => (pool.getD (i % pool.length) "", rest)

/-- The reflection insight (server.py lines 1044-1051). -/
def mkReflection (t : String) : Insight :=
  { icon := "bulb", color := "#6366F1", text := t, type := "reflection", priority := some 5 }

/-- The encouragement insight (server.py lines 1060-1066). -/
def mkEncouragement (t : String) : Insight :=
  { icon := "heart", color := "#EC4899", text := t, type := "encouragement", priority := some 6 }

/-- Rule 6 (server.py lines 1053-1066): encouragement for one to three
recent rejections, drawing from the random source. -/
def rule6 (st : EngineState) (rs : List Nat) : List Insight :=
  if 1 ≤ st.rejected.length ∧ st.rejected.length ≤ 3 then
    [mkEncouragement (randChoice (encouragingMessages st.rejected.length) rs).1]
  else []

/-- Rules 5-6 (server.py lines 1044-1066): the reflection prompt for at
least three jobs, then the encouragement, consuming the random source in
program order (rule 6 sees the source advanced by rule 5's draw). -/
def rules56 (st : EngineState) (total : Nat) (rs : List Nat) : List Insight :=
  if 3 ≤ total then
    mkReflection (randChoice reflectionPrompts rs).1 ::
      rule6 st (randChoice reflectionPrompts rs).2
  else rule6 st rs

/-- Rule 7 (server.py lines 1068-1076): ghosted acknowledgment. -/
def rule7 (st : EngineState) : List Insight :=
  if st.ghosted.isEmpty then []
  else
    [{ icon := "eye-off", color := "#9CA3AF",
       text := "👻 " ++ toString st.ghosted.length ++ " application" ++ plural st.ghosted.length ++
         " marked as ghosted. It\x27s okay—focus your energy on active opportunities!",
       type := "ghosted", priority := some 7 }]

/-- The default insight (server.py lines 1114-1120), which carries no
`priority` key. -/
def defaultInsight : Insight :=
  { icon := "rocket", color := "#3B82F6",
    text := "🚀 Add applications with follow-up dates to receive strategic insights!",
    type := "info" }

/-- All fired rules in program order (server.py lines 962-1076). -/
def buildInsights (st : EngineState) (total : Nat) (rs : List Nat) : List Insight :=
  rule0 st ++ rule1 st ++ rule2 st ++ rule3 st ++ rule4 st ++ rules56 st total rs ++ rule7 st

/-- `strategic_insights.sort(key=lambda x: x.get('priority', 99))`
(line 1079): stable ascending sort on the priority key. -/
def prLE (a b : Insight) : Prop := a.priority.getD 99 ≤ b.priority.getD 99

instance : DecidableRel prLE :=
  fun a b => inferInstanceAs (Decidable (a.priority.getD 99 ≤ b.priority.getD 99))

instance : IsTotal Insight prLE := ⟨fun a b => le_total (a.priority.getD 99) (b.priority.getD 99)⟩

instance : IsTrans Insight prLE := ⟨fun _ _ _ => le_trans⟩

/-- `insight.pop('priority', None)` (line 1084). -/
def stripPriority (i : Insight) : Insight := { i with priority := none }

/-- Urgency rank of the follow-up sort key (server.py lines 1088-1091). -/
def urgRank (f : FollowNeed) : Nat :=
  if f.urgency = "critical" then 0 else if f.urgency = "high" then 1 else 2

/-- `follow_ups_needed.sort(key=lambda x: (urgency rank, -overdue_days))`. -/
def followLE (a b : FollowNeed) : Prop :=
  urgRank a < urgRank b ∨ (urgRank a = urgRank b ∧ b.overdue_days ≤ a.overdue_days)

instance : DecidableRel followLE :=
  fun a b => inferInstanceAs (Decidable (urgRank a < urgRank b ∨
    (urgRank a = urgRank b ∧ b.overdue_days ≤ a.overdue_days)))

instance : IsTotal FollowNeed followLE := by
  constructor
  intro a b
  unfold followLE
  rcases lt_trichotomy (urgRank a) (urgRank b) with h | h | h
  · exact Or.inl (Or.inl h)
  · rcases le_total b.overdue_days a.overdue_days with h2 | h2
    · exact Or.inl (Or.inr ⟨h, h2⟩)
    · exact Or.inr (Or.inr ⟨h.symm, h2⟩)
  · exact Or.inr (Or.inl h)

instance : IsTrans FollowNeed followLE := by
  constructor
  intro a b c h1 h2
  unfold followLE at *
  rcases h1 with h1 | ⟨h1e, h1o⟩ <;> rcases h2 with h2 | ⟨h2e, h2o⟩
  · exact Or.inl (lt_trans h1 h2)
  · exact Or.inl (h2e ▸ h1)
  · exact Or.inl (h1e ▸ h2)
  · exact Or.inr ⟨h1e.trans h2e, le_trans h2o h1o⟩

/-- A follow-up reminder of the response: a real entry (server.py lines
1102-1111) or the placeholder summary (lines 1122-1126). -/
inductive FollowUpOut where
  | entry (company : String) (overdue_days : Int) (status_label : String)
      (biz_days : Nat) (is_priority : Bool) (urgency : String)
      (action_hint : String) (recruiter_email : String)
  | placeholder (text : String)
deriving Repr, DecidableEq

/-- `action_hints.get(status, "Request status update")` (lines 1095-1100). -/
def actionHint (status : String) : String :=
  if status = "applied" then "Send a brief check-in email"
  else if status = "recruiter_screening" then "Follow up on next steps"
  else if status = "phone_screen" then "Ask for feedback or timeline"
  else "Request status update"

/-- Shape an accumulated follow-up row into a response entry. -/
def mkFollowOut (fu : FollowNeed) : FollowUpOut :=
  .entry fu.company fu.overdue_days (stageLabel fu.status) fu.biz_days
    fu.is_priority fu.urgency (actionHint fu.status) fu.recruiter_email

/-- The placeholder follow-up (server.py lines 1122-1126). -/
def placeholderFollowUp : FollowUpOut :=
  .placeholder "✅ No follow-ups due—you\x27re on track!"

/-- The `dashboard/ai-insights` response. -/
structure InsightsResponse where
  insights : List Insight
  follow_ups : List FollowUpOut
  upcoming_interviews : List UpCoach
deriving Repr, DecidableEq

/-- The accumulator state after the whole per-job loop, on the up-to-1000
jobs the `.to_list(1000)` fetch returns. -/
def engineStateOf (jobs0 : List IJob) (now : Int) : EngineState :=
  (jobs0.take 1000).foldl (processJob now) initState

/-- `GET /dashboard/ai-insights` (server.py lines 698-1132): fetch up to
1000 jobs, run the accumulation loop, evaluate the rules, stable-sort by
priority, truncate to 8 and strip the priority key, take the top 4
follow-ups (sorting a possibly empty list equals the source's
`if follow_ups_needed:` guard), fall back to the default insight and the
placeholder follow-up on empty lists, and attach the first 5 upcoming
interviews. -/
def getAiInsights (jobs0 : List IJob) (now : Int) (rs : List Nat) : InsightsResponse :=
  let jobs := jobs0.take 1000
  let st := engineStateOf jobs0 now
  let raw := buildInsights st jobs.length rs
  let ins := ((raw.insertionSort prLE).take 8).map stripPriority
  let fus := ((st.followUps.insertionSort followLE).take 4).map mkFollowOut
  { insights := if ins.isEmpty then [defaultInsight] else ins,
    follow_ups := if fus.isEmpty then [placeholderFollowUp] else fus,
    upcoming_interviews := st.upcoming.take 5 }

/-! ### Engine theorems -/

theorem length_ite_default {α : Type} (l : List α) (d : α) {n : Nat}
    (hl : l.length ≤ n) (hn : 1 ≤ n) :
    (if l.isEmpty then [d] else l).length ≤ n := by
  split
  · simpa using hn
  · exact hl

theorem ite_default_ne_nil {α : Type} (l : List α) (d : α) :
    (if l.isEmpty then [d] else l) ≠ [] := by
  split
  · simp
  · rename_i h
    simpa [List.isEmpty_iff] using h

/-- **C2.**  For every job list — including adversarially large ones, the
fetch already capping at 1000 documents — the response carries at most 8
insights and at most 4 follow-ups. -/
theorem getAiInsights_caps (jobs : List IJob) (now : Int) (rs : List Nat) :
    (getAiInsights jobs now rs).insights.length ≤ 8 ∧
    (getAiInsights jobs now rs).follow_ups.length ≤ 4 := by
  unfold getAiInsights
  refine ⟨length_ite_default _ _ ?_ (by omega), length_ite_default _ _ ?_ (by omega)⟩
  · rw [List.length_map]
    exact List.length_take_le _ _
  · rw [List.length_map]
    exact List.length_take_le _ _

/-- **C3.**  On the empty job list the engine returns exactly the one
default info insight and the one placeholder follow-up; on every input
both response lists are non-empty. -/
theorem getAiInsights_defaults_nonempty :
    (∀ now rs, getAiInsights [] now rs =
      { insights := [defaultInsight], follow_ups := [placeholderFollowUp],
        upcoming_interviews := [] }) ∧
    ∀ jobs now rs, (getAiInsights jobs now rs).insights ≠ [] ∧
      (getAiInsights jobs now rs).follow_ups ≠ [] := by
  constructor
  · intro now rs
    rfl
  · intro jobs now rs
    exact ⟨ite_default_ne_nil _ _, ite_default_ne_nil _ _⟩

/-! ### Provenance of insights: which rule produced a member, with its
fixed `type` tag and priority -/

theorem randChoice_fst_mem (pool : List String) (rs : List Nat) (hp : pool ≠ []) :
    (randChoice pool rs).1 ∈ pool := by
  unfold randChoice
  match rs with
  | [] =>
    cases pool with
    | nil => exact absurd rfl hp
    | cons a t => simp [List.headD]
  | i :: rest =>
    have hlen : i % pool.length < pool.length := Nat.mod_lt _ (List.length_pos.mpr hp)
    show pool.getD (i % pool.length) "" ∈ pool
    rw [List.getD_eq_getElem?_getD, List.getElem?_eq_getElem hlen]
    exact List.getElem_mem hlen

theorem shape_rule0 {st : EngineState} {i : Insight} (h : i ∈ rule0 st) :
    i.type = "urgent" ∧ i.priority = some 0 := by
  by_cases hc : (st.upcoming.filter (fun x => x.days_until = 0)).isEmpty
  · simp [rule0, hc] at h
  · simp [rule0, hc] at h
    subst h
    exact ⟨rfl, rfl⟩

theorem shape_rule1 {st : EngineState} {i : Insight} (h : i ∈ rule1 st) :
    i.type = "celebration" ∧ i.priority = some 1 := by
  by_cases hc : st.offers.isEmpty
  · simp [rule1, hc] at h
  · simp [rule1, hc] at h
    subst h
    exact ⟨rfl, rfl⟩

theorem shape_rule2 {st : EngineState} {i : Insight} (h : i ∈ rule2 st) :
    ∃ best, maxByVal st.stageSuccess = some best ∧ 2 ≤ best.2 ∧ i = mkPattern best := by
  unfold rule2 at h
  match hm : maxByVal st.stageSuccess with
  | none => simp [hm] at h
  | some best =>
    simp only [hm] at h
    by_cases h2 : 2 ≤ best.2
    · rw [if_pos h2] at h
      simp at h
      exact ⟨best, rfl, h2, h⟩
    · rw [if_neg h2] at h
      simp at h

theorem shape_rule3 {st : EngineState} {i : Insight} (h : i ∈ rule3 st) :
    i.type = "momentum" ∧ i.priority = some 3 := by
  by_cases hc : 0 < st.weeklyApplied ∨ 0 < st.weeklyInterviews
  · simp only [rule3, if_pos hc, List.mem_singleton] at h
    subst h
    exact ⟨rfl, rfl⟩
  · simp [rule3, hc] at h

theorem shape_rule4 {st : EngineState} {i : Insight} (h : i ∈ rule4 st) :
    i.type = "coaching" ∧ i.priority = some 4 := by
  unfold rule4 at h
  rw [List.mem_map] at h
  obtain ⟨c, -, rfl⟩ := h
  exact ⟨rfl, rfl⟩

theorem shape_rule6 {st : EngineState} {rs : List Nat} {i : Insight} (h : i ∈ rule6 st rs) :
    i.type = "encouragement" ∧ i.priority = some 6 ∧
    i.text ∈ encouragingMessages st.rejected.length := by
  by_cases hc : 1 ≤ st.rejected.length ∧ st.rejected.length ≤ 3
  · simp only [rule6, if_pos hc, List.mem_singleton] at h
    subst h
    exact ⟨rfl, rfl, randChoice_fst_mem _ _ (by simp [encouragingMessages])⟩
  · simp [rule6, hc] at h

theorem shape_rules56 {st : EngineState} {total : Nat} {rs : List Nat} {i : Insight}
    (h : i ∈ rules56 st total rs) :
    (i.type = "reflection" ∧ i.priority = some 5 ∧ i.text ∈ reflectionPrompts) ∨
    (i.type = "encouragement" ∧ i.priority = some 6 ∧
      i.text ∈ encouragingMessages st.rejected.length) := by
  unfold rules56 at h
  by_cases h3 : 3 ≤ total
  · rw [if_pos h3] at h
    rcases List.mem_cons.mp h with heq | h6
    · subst heq
      exact Or.inl ⟨rfl, rfl, randChoice_fst_mem _ _ (by simp [reflectionPrompts])⟩
    · exact Or.inr (shape_rule6 h6)
  · rw [if_neg h3] at h
    exact Or.inr (shape_rule6 h)

theorem shape_rule7 {st : EngineState} {i : Insight} (h : i ∈ rule7 st) :
    i.type = "ghosted" ∧ i.priority = some 7 := by
  by_cases hc : st.ghosted.isEmpty
  · simp [rule7, hc] at h
  · simp [rule7, hc] at h
    subst h
    exact ⟨rfl, rfl⟩

/-- Case split on which rule produced a member of the assembled list. -/
theorem mem_buildInsights_cases {st : EngineState} {total : Nat} {rs : List Nat} {i : Insight}
    (h : i ∈ buildInsights st total rs) :
    i ∈ rule0 st ∨ i ∈ rule1 st ∨ i ∈ rule2 st ∨ i ∈ rule3 st ∨ i ∈ rule4 st ∨
    i ∈ rules56 st total rs ∨ i ∈ rule7 st := by
  simpa [buildInsights, List.mem_append, or_assoc] using h

/-- Every member of the assembled rule output: the randomized texts come
from their fixed pools, and a pattern insight certifies the maximal
stage-success entry with count at least 2. -/
theorem provenance_buildInsights {st : EngineState} {total : Nat} {rs : List Nat} {i : Insight}
    (h : i ∈ buildInsights st total rs) :
    (i.type = "reflection" → i.text ∈ reflectionPrompts) ∧
    (i.type = "encouragement" → i.text ∈ encouragingMessages st.rejected.length) ∧
    (i.type = "pattern" →
      ∃ best, maxByVal st.stageSuccess = some best ∧ 2 ≤ best.2 ∧ i = mkPattern best) := by
  rcases mem_buildInsights_cases h with h0 | h1 | h2 | h3 | h4 | h56 | h7
  · obtain ⟨ht, -⟩ := shape_rule0 h0
    exact ⟨fun hr => absurd (ht.symm.trans hr) (by decide),
           fun hr => absurd (ht.symm.trans hr) (by decide),
           fun hr => absurd (ht.symm.trans hr) (by decide)⟩
  · obtain ⟨ht, -⟩ := shape_rule1 h1
    exact ⟨fun hr => absurd (ht.symm.trans hr) (by decide),
           fun hr => absurd (ht.symm.trans hr) (by decide),
           fun hr => absurd (ht.symm.trans hr) (by decide)⟩
  · obtain ⟨best, hm, h2le, heq⟩ := shape_rule2 h2
    have ht : i.type = "pattern" := by rw [heq]; rfl
    exact ⟨fun hr => absurd (ht.symm.trans hr) (by decide),
           fun hr => absurd (ht.symm.trans hr) (by decide),
           fun _ => ⟨best, hm, h2le, heq⟩⟩
  · obtain ⟨ht, -⟩ := shape_rule3 h3
    exact ⟨fun hr => absurd (ht.symm.trans hr) (by decide),
           fun hr => absurd (ht.symm.trans hr) (by decide),
           fun hr => absurd (ht.symm.trans hr) (by decide)⟩
  · obtain ⟨ht, -⟩ := shape_rule4 h4
    exact ⟨fun hr => absurd (ht.symm.trans hr) (by decide),
           fun hr => absurd (ht.symm.trans hr) (by decide),
           fun hr => absurd (ht.symm.trans hr) (by decide)⟩
  · rcases shape_rules56 h56 with ⟨ht, -, hp⟩ | ⟨ht, -, hp⟩
    · exact ⟨fun _ => hp,
             fun hr => absurd (ht.symm.trans hr) (by decide),
             fun hr => absurd (ht.symm.trans hr) (by decide)⟩
    · exact ⟨fun hr => absurd (ht.symm.trans hr) (by decide),
             fun _ => hp,
             fun hr => absurd (ht.symm.trans hr) (by decide)⟩
  · obtain ⟨ht, -⟩ := shape_rule7 h7
    exact ⟨fun hr => absurd (ht.symm.trans hr) (by decide),
           fun hr => absurd (ht.symm.trans hr) (by decide),
           fun hr => absurd (ht.symm.trans hr) (by decide)⟩

/-- A member of the final `insights` list is either the default fallback
or the priority-stripped image of a rule output. -/
theorem mem_insights_cases {jobs : List IJob} {now : Int} {rs : List Nat} {i : Insight}
    (hi : i ∈ (getAiInsights jobs now rs).insights) :
    i = defaultInsight ∨
    ∃ p ∈ buildInsights (engineStateOf jobs now) (jobs.take 1000).length rs,
      i = stripPriority p := by
  unfold getAiInsights at hi
  dsimp only at hi
  split at hi
  · exact Or.inl (List.mem_singleton.mp hi)
  · rw [List.mem_map] at hi
    obtain ⟨p, hp, rfl⟩ := hi
    exact Or.inr ⟨p, (List.mem_insertionSort prLE).mp (List.mem_of_mem_take hp), rfl⟩

/-- **C4.**  With the random draws exposed as the explicit `rs` stream
(the shallow embedding of the module-level `random` state the source
consults), the engine is a pure function: identical `(jobs, now,
random_source)` triples give identical responses, and every randomized
text is a member of its fixed pool. -/
theorem getAiInsights_deterministic (jobs : List IJob) (now : Int) (r1 r2 : List Nat)
    (h : r1 = r2) :
    getAiInsights jobs now r1 = getAiInsights jobs now r2 ∧
    ∀ i ∈ (getAiInsights jobs now r1).insights,
      (i.type = "reflection" → i.text ∈ reflectionPrompts) ∧
      (i.type = "encouragement" →
        i.text ∈ encouragingMessages (engineStateOf jobs now).rejected.length) := by
  subst h
  refine ⟨rfl, ?_⟩
  intro i hi
  rcases mem_insights_cases hi with rfl | ⟨p, hp, rfl⟩
  · exact ⟨fun hr => absurd hr (by decide), fun hr => absurd hr (by decide)⟩
  · obtain ⟨hrefl, henc, -⟩ := provenance_buildInsights hp
    exact ⟨hrefl, henc⟩

/-- **C4, witness** at a concrete triple: two runs on three applied jobs
with the same draw stream coincide, and the emitted texts obey the rule. -/
theorem getAiInsights_deterministic_witness :
    getAiInsights [{ status := some "applied" }, { status := some "applied" },
        { status := some "applied" }] 0 [2] =
      getAiInsights [{ status := some "applied" }, { status := some "applied" },
        { status := some "applied" }] 0 [2] ∧
    ∀ i ∈ (getAiInsights [{ status := some "applied" }, { status := some "applied" },
        { status := some "applied" }] 0 [2]).insights,
      (i.type = "reflection" → i.text ∈ reflectionPrompts) ∧
      (i.type = "encouragement" →
        i.text ∈ encouragingMessages (engineStateOf [{ status := some "applied" },
          { status := some "applied" }, { status := some "applied" }] 0).rejected.length) :=
  getAiInsights_deterministic _ 0 [2] [2] rfl

/-! ### Stage-success accounting (claim C5) -/

/-- `stage_success_count.get(s, 0)` read off the insertion-ordered dict. -/
def succCount (l : List (String × Nat)) (k : String) : Nat :=
  ((l.find? (fun e => e.1 = k)).map (fun e => e.2)).getD 0

/-- A job reaches the stage-success block of lines 886-890 exactly when
none of the three `continue`s of lines 867-884 fires: its status is not
`ghosted`, not `offer`, and not a rejection at most 14 days old. -/
def eligibleForSuccess (now : Int) (j : IJob) : Bool :=
  decide (effStatus j ≠ "ghosted" ∧ effStatus j ≠ "offer" ∧
    ¬(effStatus j = "rejected" ∧ daysOldOf now j ≤ 14))

theorem succCount_nil (k : String) : succCount [] k = 0 := rfl

theorem succCount_cons (e : String × Nat) (t : List (String × Nat)) (k : String) :
    succCount (e :: t) k = if e.1 = k then e.2 else succCount t k := by
  unfold succCount
  by_cases h : e.1 = k
  · rw [List.find?_cons_of_pos _ (by simp [h]), if_pos h]
    rfl
  · rw [List.find?_cons_of_neg _ (by simp [h]), if_neg h]

theorem succCount_map_bump (l : List (String × Nat)) (k k' : String) :
    succCount (l.map (fun e => if e.1 = k' then (e.1, e.2 + 1) else e)) k =
      if k' = k ∧ l.any (fun e => e.1 = k) then succCount l k + 1 else succCount l k := by
  induction l with
  | nil => simp [succCount]
  | cons e t ih =>
    have hkey : (if e.1 = k' then (e.1, e.2 + 1) else e).1 = e.1 := by split <;> rfl
    have hval : (if e.1 = k' then (e.1, e.2 + 1) else e).2 =
        if e.1 = k' then e.2 + 1 else e.2 := by split <;> rfl
    have hany : ((e :: t).any (fun e => decide (e.1 = k)) = true) ↔
        (e.1 = k ∨ t.any (fun e => decide (e.1 = k)) = true) := by
      simp [List.any_cons]
    rw [List.map_cons, succCount_cons, succCount_cons, hkey, hval]
    by_cases hek : e.1 = k
    · rw [if_pos hek, if_pos hek]
      by_cases hkk : k' = k
      · have he' : e.1 = k' := hek.trans hkk.symm
        rw [if_pos he',
          if_pos (show k' = k ∧ ((e :: t).any fun e => decide (e.1 = k)) = true from
            ⟨hkk, hany.mpr (Or.inl hek)⟩)]
      · have he' : ¬ e.1 = k' := fun h => hkk (h.symm.trans hek)
        rw [if_neg he',
          if_neg (show ¬(k' = k ∧ ((e :: t).any fun e => decide (e.1 = k)) = true) from
            fun hc => hkk hc.1)]
    · rw [if_neg hek, if_neg hek, ih]
      by_cases hkk : k' = k
      · by_cases hta : (t.any (fun e => decide (e.1 = k))) = true
        · rw [if_pos (show k' = k ∧ (t.any fun e => decide (e.1 = k)) = true from ⟨hkk, hta⟩),
            if_pos (show k' = k ∧ ((e :: t).any fun e => decide (e.1 = k)) = true from
              ⟨hkk, hany.mpr (Or.inr hta)⟩)]
        · rw [if_neg (show ¬(k' = k ∧ (t.any fun e => decide (e.1 = k)) = true) from
              fun hc => hta hc.2),
            if_neg (show ¬(k' = k ∧ ((e :: t).any fun e => decide (e.1 = k)) = true) from
              fun hc => hta ((hany.mp hc.2).resolve_left hek))]
      · rw [if_neg (show ¬(k' = k ∧ (t.any fun e => decide (e.1 = k)) = true) from
            fun hc => hkk hc.1),
          if_neg (show ¬(k' = k ∧ ((e :: t).any fun e => decide (e.1 = k)) = true) from
            fun hc => hkk hc.1)]

theorem succCount_bumpAssoc (l : List (String × Nat)) (k k' : String) :
    succCount (bumpAssoc l k') k = succCount l k + (if k' = k then 1 else 0) := by
  unfold bumpAssoc
  by_cases hany : l.any (fun e => e.1 = k') = true
  · rw [if_pos hany, succCount_map_bump]
    by_cases hkk : k' = k
    · subst hkk
      rw [if_pos ⟨rfl, hany⟩, if_pos rfl]
    · rw [if_neg (fun hc => hkk hc.1), if_neg hkk]
      simp
  · rw [if_neg hany]
    unfold succCount
    rw [List.find?_append]
    by_cases hkk : k' = k
    · subst hkk
      have hf : l.find? (fun e => decide (e.1 = k')) = none := by
        rw [List.find?_eq_none]
        intro x hx
        simp only [decide_eq_true_eq]
        intro hc
        exact hany (List.any_eq_true.mpr ⟨x, hx, by simp [hc]⟩)
      rw [hf]
      simp [List.find?]
    · have hf2 : [((k' : String), (1 : Nat))].find? (fun e => decide (e.1 = k)) = none := by
        simp [List.find?, hkk]
      rw [hf2, Option.or_none, if_neg hkk]
      simp

theorem succCount_foldl_bumpAssoc (ks : List String) (acc : List (String × Nat)) (k : String) :
    succCount (ks.foldl bumpAssoc acc) k = succCount acc k + ks.count k := by
  induction ks generalizing acc with
  | nil => simp
  | cons k' t ih =>
    rw [List.foldl_cons, ih, succCount_bumpAssoc, List.count_cons]
    by_cases hkk : k' = k
    · simp [hkk]
      omega
    · simp [hkk]

theorem stageSuccess_stepCounts (now : Int) (st : EngineState) (j : IJob) :
    (stepCounts now st j).stageSuccess = st.stageSuccess := by
  unfold stepCounts
  rcases anchorOf j with _ | t <;> dsimp only <;> (repeat' split) <;> rfl

theorem stageSuccess_stepCompany (now : Int) (st : EngineState) (j : IJob) :
    (stepCompany now st j).stageSuccess = st.stageSuccess := by
  unfold stepCompany
  dsimp only
  (repeat' split) <;> rfl

theorem stageSuccess_stepUpcoming (now : Int) (st : EngineState) (j : IJob) :
    (stepUpcoming now st j).stageSuccess = st.stageSuccess := by
  unfold stepUpcoming
  dsimp only
  (repeat' split) <;> rfl

theorem stageSuccess_stepAdvanced (st : EngineState) (j : IJob) :
    (stepAdvanced st j).stageSuccess = st.stageSuccess := by
  unfold stepAdvanced
  (repeat' split) <;> rfl

theorem stageSuccess_stepFollowUp (now : Int) (st : EngineState) (j : IJob) :
    (stepFollowUp now st j).stageSuccess = st.stageSuccess := by
  unfold stepFollowUp
  dsimp only
  (repeat' split) <;> rfl

theorem stageSuccess_stepSuccess (st : EngineState) (j : IJob) :
    (stepSuccess st j).stageSuccess =
      if 3 ≤ stageOrder (effStatus j) then
        (allStages.take (stageOrder (effStatus j))).foldl bumpAssoc st.stageSuccess
      else st.stageSuccess := by
  by_cases h : 3 ≤ stageOrder (effStatus j) <;> simp [stepSuccess, h]

theorem stageSuccess_processJob (now : Int) (st : EngineState) (j : IJob) :
    (processJob now st j).stageSuccess =
      if eligibleForSuccess now j = true ∧ 3 ≤ stageOrder (effStatus j) then
        (allStages.take (stageOrder (effStatus j))).foldl bumpAssoc st.stageSuccess
      else st.stageSuccess := by
  unfold processJob
  dsimp only
  by_cases hg : effStatus j = "ghosted"
  · rw [if_pos hg]
    have helig : eligibleForSuccess now j = false := by simp [eligibleForSuccess, hg]
    rw [if_neg (fun hc => by rw [helig] at hc; exact absurd hc.1 (by decide))]
    exact stageSuccess_stepCounts now st j
  · rw [if_neg hg]
    by_cases ho : effStatus j = "offer"
    · rw [if_pos ho]
      have helig : eligibleForSuccess now j = false := by simp [eligibleForSuccess, ho]
      rw [if_neg (fun hc => by rw [helig] at hc; exact absurd hc.1 (by decide))]
      exact stageSuccess_stepCounts now st j
    · rw [if_neg ho]
      by_cases hr : effStatus j = "rejected" ∧ daysOldOf now j ≤ 14
      · rw [if_pos hr]
        have helig : eligibleForSuccess now j = false := by
          simp only [eligibleForSuccess, decide_eq_false_iff_not]
          intro hc
          exact hc.2.2 hr
        rw [if_neg (fun hc => by rw [helig] at hc; exact absurd hc.1 (by decide))]
        exact stageSuccess_stepCounts now st j
      · rw [if_neg hr]
        have helig : eligibleForSuccess now j = true := by
          simp [eligibleForSuccess, hg, ho, hr]
        rw [stageSuccess_stepFollowUp, stageSuccess_stepAdvanced,
          stageSuccess_stepUpcoming, stageSuccess_stepCompany, stageSuccess_stepSuccess,
          stageSuccess_stepCounts]
        simp [helig]

theorem succCount_foldl_processJob (now : Int) (jobs : List IJob) (st : EngineState) (k : String) :
    succCount ((jobs.foldl (processJob now) st).stageSuccess) k =
      succCount st.stageSuccess k +
        (jobs.map (fun j =>
          if eligibleForSuccess now j = true ∧ 3 ≤ stageOrder (effStatus j)
          then (allStages.take (stageOrder (effStatus j))).count k else 0)).sum := by
  induction jobs generalizing st with
  | nil => simp
  | cons j t ih =>
    rw [List.foldl_cons, ih, List.map_cons, List.sum_cons, stageSuccess_processJob]
    by_cases hc : eligibleForSuccess now j = true ∧ 3 ≤ stageOrder (effStatus j)
    · rw [if_pos hc, if_pos hc, succCount_foldl_bumpAssoc]
      omega
    · rw [if_neg hc, if_neg hc]
      omega

theorem indexOf?_lt_length {α : Type} [BEq α] :
    ∀ {l : List α} {a : α} {i : Nat}, l.indexOf? a = some i → i < l.length := by
  intro l
  induction l with
  | nil => intro a i h; simp at h
  | cons b t ih =>
    intro a i h
    rw [List.indexOf?_cons] at h
    by_cases hba : (b == a) = true
    · rw [if_pos hba] at h
      cases h
      simp
    · rw [if_neg hba] at h
      rw [Option.map_eq_some'] at h
      obtain ⟨i', hi', heq⟩ := h
      subst heq
      have := ih hi'
      simp only [List.length_cons]
      omega

theorem stageOrder_lt_13 (s : String) : stageOrder s < 13 := by
  unfold stageOrder
  match h : allStages.indexOf? s with
  | none => simp
  | some i =>
    have := indexOf?_lt_length h
    simp only [Option.getD_some]
    simp [allStages] at this
    omega

theorem count_take_allStages :
    ∀ k ∈ allStages, ∀ n < 13,
      (allStages.take n).count k = if stageOrder k < n then 1 else 0 := by decide

/-- The count the pattern rule reports: the value of the first maximal
entry of `stage_success_count`, 0 when the dict is empty. -/
def maxSuccessCount (l : List (String × Nat)) : Nat :=
  ((maxByVal l).map (fun e => e.2)).getD 0

theorem length_rule0_le (st : EngineState) : (rule0 st).length ≤ 1 := by
  unfold rule0
  dsimp only
  split <;> simp

theorem length_rule1_le (st : EngineState) : (rule1 st).length ≤ 1 := by
  unfold rule1
  split <;> simp

theorem length_rule6_le (st : EngineState) (rs : List Nat) : (rule6 st rs).length ≤ 1 := by
  unfold rule6
  split <;> simp

theorem sorted_of_length_le_one {l : List Insight} (h : l.length ≤ 1) : l.Sorted prLE := by
  match l with
  | [] => exact List.sorted_nil
  | [a] => exact List.sorted_singleton a
  | a :: b :: t => simp at h

theorem sorted_append_of_bound (c : Nat) {l₁ l₂ : List Insight}
    (h₁ : l₁.Sorted prLE) (h₂ : l₂.Sorted prLE)
    (hb₁ : ∀ i ∈ l₁, i.priority.getD 99 ≤ c) (hb₂ : ∀ i ∈ l₂, c ≤ i.priority.getD 99) :
    (l₁ ++ l₂).Sorted prLE :=
  List.pairwise_append.mpr ⟨h₁, h₂, fun a ha b hb => le_trans (hb₁ a ha) (hb₂ b hb)⟩

theorem prio_rule2 {st : EngineState} {i : Insight} (h : i ∈ rule2 st) :
    i.priority.getD 99 = 2 := by
  obtain ⟨best, -, -, rfl⟩ := shape_rule2 h
  rfl

theorem length_rule2_le (st : EngineState) : (rule2 st).length ≤ 1 := by
  unfold rule2
  rcases maxByVal st.stageSuccess with _ | best
  · simp
  · dsimp only
    split <;> simp

theorem length_rule3_le (st : EngineState) : (rule3 st).length ≤ 1 := by
  unfold rule3
  split <;> simp

theorem length_rule7_le (st : EngineState) : (rule7 st).length ≤ 1 := by
  unfold rule7
  split <;> simp

theorem sorted_buildInsights (st : EngineState) (total : Nat) (rs : List Nat) :
    (buildInsights st total rs).Sorted prLE := by
  have h56 : ∀ i ∈ rules56 st total rs, 5 ≤ i.priority.getD 99 ∧ i.priority.getD 99 ≤ 6 := by
    intro i hi
    rcases shape_rules56 hi with ⟨-, hp, -⟩ | ⟨-, hp, -⟩ <;> rw [hp] <;> exact ⟨by decide, by decide⟩
  have s56 : (rules56 st total rs).Sorted prLE := by
    unfold rules56
    split
    · rw [List.sorted_cons]
      refine ⟨?_, sorted_of_length_le_one (length_rule6_le st _)⟩
      intro b hb
      obtain ⟨-, hp, -⟩ := shape_rule6 hb
      unfold prLE
      rw [hp]
      norm_num [mkReflection]
    · exact sorted_of_length_le_one (length_rule6_le st rs)
  have s4 : (rule4 st).Sorted prLE := by
    apply List.pairwise_of_forall_mem_list
    intro a ha b hb
    obtain ⟨-, hpa⟩ := shape_rule4 ha
    obtain ⟨-, hpb⟩ := shape_rule4 hb
    show a.priority.getD 99 ≤ b.priority.getD 99
    rw [hpa, hpb]
  have hb01 : ∀ i ∈ rule0 st ++ rule1 st, i.priority.getD 99 ≤ 1 := by
    intro i hi
    rcases List.mem_append.mp hi with h | h
    · rw [(shape_rule0 h).2]; decide
    · rw [(shape_rule1 h).2]
      decide
  have s01 : (rule0 st ++ rule1 st).Sorted prLE := by
    refine sorted_append_of_bound 1 (sorted_of_length_le_one (length_rule0_le st))
      (sorted_of_length_le_one (length_rule1_le st)) ?_ ?_
    · intro i hi
      rw [(shape_rule0 hi).2]
      decide
    · intro i hi
      rw [(shape_rule1 hi).2]
      decide
  have hb02 : ∀ i ∈ rule0 st ++ rule1 st ++ rule2 st, i.priority.getD 99 ≤ 2 := by
    intro i hi
    rcases List.mem_append.mp hi with h | h
    · exact le_trans (hb01 i h) (by decide)
    · rw [prio_rule2 h]
  have s02 : (rule0 st ++ rule1 st ++ rule2 st).Sorted prLE := by
    refine sorted_append_of_bound 2 s01 (sorted_of_length_le_one (length_rule2_le st))
      (fun i hi => le_trans (hb01 i hi) (by decide)) ?_
    intro i hi
    rw [prio_rule2 hi]
  have hb03 : ∀ i ∈ rule0 st ++ rule1 st ++ rule2 st ++ rule3 st, i.priority.getD 99 ≤ 3 := by
    intro i hi
    rcases List.mem_append.mp hi with h | h
    · exact le_trans (hb02 i h) (by decide)
    · rw [(shape_rule3 h).2]
      decide
  have s03 : (rule0 st ++ rule1 st ++ rule2 st ++ rule3 st).Sorted prLE := by
    refine sorted_append_of_bound 3 s02 (sorted_of_length_le_one (length_rule3_le st))
      (fun i hi => le_trans (hb02 i hi) (by decide)) ?_
    intro i hi
    rw [(shape_rule3 hi).2]
    decide
  have hb04 : ∀ i ∈ rule0 st ++ rule1 st ++ rule2 st ++ rule3 st ++ rule4 st,
      i.priority.getD 99 ≤ 4 := by
    intro i hi
    rcases List.mem_append.mp hi with h | h
    · exact le_trans (hb03 i h) (by decide)
    · rw [(shape_rule4 h).2]
      decide
  have s04 : (rule0 st ++ rule1 st ++ rule2 st ++ rule3 st ++ rule4 st).Sorted prLE := by
    refine sorted_append_of_bound 4 s03 s4
      (fun i hi => le_trans (hb03 i hi) (by decide)) ?_
    intro i hi
    rw [(shape_rule4 hi).2]
    decide
  have hb05 : ∀ i ∈ rule0 st ++ rule1 st ++ rule2 st ++ rule3 st ++ rule4 st ++
      rules56 st total rs, i.priority.getD 99 ≤ 6 := by
    intro i hi
    rcases List.mem_append.mp hi with h | h
    · exact le_trans (hb04 i h) (by decide)
    · exact (h56 i h).2
  have s05 : (rule0 st ++ rule1 st ++ rule2 st ++ rule3 st ++ rule4 st ++
      rules56 st total rs).Sorted prLE := by
    refine sorted_append_of_bound 5 s04 s56
      (fun i hi => le_trans (hb04 i hi) (by decide)) ?_
    intro i hi
    exact (h56 i hi).1
  unfold buildInsights
  refine sorted_append_of_bound 7 s05 (sorted_of_length_le_one (length_rule7_le st))
    (fun i hi => le_trans (hb05 i hi) (by decide)) ?_
  intro i hi
  rw [(shape_rule7 hi).2]
  decide

theorem mem_take_append_left {α : Type} {p : α} {X : List α} (Y : List α) (n : Nat)
    (h : p ∈ X.take n) : p ∈ (X ++ Y).take n := by
  rw [List.take_append_eq_append_take]
  exact List.mem_append_left _ h

theorem sum_weights_eq_countP (now : Int) (k : String) (hk : k ∈ allStages) (l : List IJob) :
    (l.map (fun j =>
      if eligibleForSuccess now j = true ∧ 3 ≤ stageOrder (effStatus j)
      then (allStages.take (stageOrder (effStatus j))).count k else 0)).sum =
    l.countP (fun j =>
      eligibleForSuccess now j && decide (3 ≤ stageOrder (effStatus j)) &&
      decide (stageOrder k < stageOrder (effStatus j))) := by
  induction l with
  | nil => rfl
  | cons j t ih =>
    rw [List.map_cons, List.sum_cons, List.countP_cons, ih]
    by_cases he : eligibleForSuccess now j = true
    · by_cases h3 : 3 ≤ stageOrder (effStatus j)
      · rw [if_pos ⟨he, h3⟩, count_take_allStages k hk _ (stageOrder_lt_13 _)]
        by_cases hlt : stageOrder k < stageOrder (effStatus j)
        · rw [if_pos hlt, if_pos (by simp [he, h3, hlt])]
          omega
        · rw [if_neg hlt, if_neg (by simp [hlt])]
          omega
      · rw [if_neg (fun hc => h3 hc.2), if_neg (by simp [h3])]
        omega
    · rw [if_neg (fun hc => he hc.1), if_neg (by simp [he])]
      omega

/-- **C5, amended.**  Jobs that survive the early `continue`s (status not
`ghosted`, not `offer`, and not a rejection at most 14 days old — so the
terminal statuses are excluded, except rejections older than 14 days)
credit every stage strictly earlier than their status once the status
index is at least 3; the pattern insight appears in the final response
exactly when the maximal such count is at least 2, and then it reports
the first maximal entry. -/
theorem stageSuccess_spec (jobs : List IJob) (now : Int) (rs : List Nat) :
    (∀ k, k ∈ allStages →
      succCount (engineStateOf jobs now).stageSuccess k =
        (jobs.take 1000).countP (fun j =>
          eligibleForSuccess now j &&
          decide (3 ≤ stageOrder (effStatus j)) &&
          decide (stageOrder k < stageOrder (effStatus j)))) ∧
    ((∃ i ∈ (getAiInsights jobs now rs).insights, i.type = "pattern") ↔
      2 ≤ maxSuccessCount (engineStateOf jobs now).stageSuccess) := by
  constructor
  · intro k hk
    unfold engineStateOf
    rw [succCount_foldl_processJob, sum_weights_eq_countP now k hk]
    have hinit : succCount initState.stageSuccess k = 0 := rfl
    omega
  · constructor
    · rintro ⟨i, hi, ht⟩
      rcases mem_insights_cases hi with rfl | ⟨p, hp, rfl⟩
      · exact absurd ht (by decide)
      · obtain ⟨-, -, hpat⟩ := provenance_buildInsights hp
        obtain ⟨best, hm, h2, rfl⟩ := hpat ht
        unfold maxSuccessCount
        rw [hm]
        exact h2
    · intro h2
      match hm : maxByVal (engineStateOf jobs now).stageSuccess with
      | none => rw [maxSuccessCount, hm] at h2; exact absurd h2 (by decide)
      | some best =>
        have hb2 : 2 ≤ best.2 := by
          rw [maxSuccessCount, hm] at h2
          exact h2
        have hr2 : rule2 (engineStateOf jobs now) = [mkPattern best] := by
          unfold rule2
          rw [hm]
          dsimp only
          rw [if_pos hb2]
        have hmem8 : mkPattern best ∈
            ((buildInsights (engineStateOf jobs now) (jobs.take 1000).length rs).insertionSort
              prLE).take 8 := by
          rw [(sorted_buildInsights _ _ _).insertionSort_eq]
          unfold buildInsights
          rw [hr2]
          refine mem_take_append_left _ 8 (mem_take_append_left _ 8
            (mem_take_append_left _ 8 (mem_take_append_left _ 8 ?_)))
          rw [List.take_of_length_le]
          · exact List.mem_append_right _ (List.mem_singleton_self _)
          · have h0 := length_rule0_le (engineStateOf jobs now)
            have h1 := length_rule1_le (engineStateOf jobs now)
            simp only [List.length_append, List.length_singleton]
            omega
        have hmemIns : stripPriority (mkPattern best) ∈
            (((buildInsights (engineStateOf jobs now) (jobs.take 1000).length
              rs).insertionSort prLE).take 8).map stripPriority :=
          List.mem_map_of_mem _ hmem8
        refine ⟨stripPriority (mkPattern best), ?_, rfl⟩
        unfold getAiInsights
        dsimp only
        have hne : ((((buildInsights (engineStateOf jobs now) (jobs.take 1000).length
            rs).insertionSort prLE).take 8).map stripPriority).isEmpty = false := by
          rw [List.isEmpty_eq_false]
          exact List.ne_nil_of_mem hmemIns
        rw [if_neg (by rw [hne]; exact fun hc => absurd hc (by decide))]
        exact hmemIns

/-- Two jobs rejected four calendar days before `sampleNow`. -/
def rejRecentA : IJob :=
  { status := some "rejected", company_name := some "A", date_applied := some (19726 * 86400) }

/-- Second recently-rejected job. -/
def rejRecentB : IJob :=
  { status := some "rejected", company_name := some "B", date_applied := some (19726 * 86400) }

/-- A job rejected thirty calendar days before `sampleNow`. -/
def rejOldA : IJob :=
  { status := some "rejected", company_name := some "F", date_applied := some (19700 * 86400) }

/-- Second old rejection. -/
def rejOldB : IJob :=
  { status := some "rejected", company_name := some "G", date_applied := some (19700 * 86400) }

/-- 2024-01-08 00:00 UTC (epoch day 19730), the engine's "now" in the
concrete scenarios. -/
def sampleNow : Int := 19730 * 86400

/-- **C5, counterexample.**  Two jobs with the terminal status `rejected`
four days old: `stage_order("rejected") = 10 ≥ 3`, so the claim predicts a
count of 2 for every earlier stage and an emitted pattern insight — but
the loop `continue`s at server.py line 884 before the stage-success block,
the dict stays empty, and no pattern insight is produced. -/
theorem stageSuccess_skips_recent_terminal :
    stageOrder "rejected" = 10 ∧
    (engineStateOf [rejRecentA, rejRecentB] sampleNow).stageSuccess = [] ∧
    (getAiInsights [rejRecentA, rejRecentB] sampleNow [0]).insights.all
      (fun i => i.type != "pattern") = true := by
  refine ⟨by decide, by decide, by decide⟩

/-- **C5, witness** for the amended characterization: for two rejections
older than 14 days the `applied` counter equals the count formula (here 2,
each rejection crediting all ten earlier stages). -/
theorem stageSuccess_spec_witness :
    succCount (engineStateOf [rejOldA, rejOldB] sampleNow).stageSuccess "applied" =
      ([rejOldA, rejOldB].take 1000).countP (fun j =>
        eligibleForSuccess sampleNow j &&
        decide (3 ≤ stageOrder (effStatus j)) &&
        decide (stageOrder "applied" < stageOrder (effStatus j))) :=
  (stageSuccess_spec [rejOldA, rejOldB] sampleNow [0]).1 "applied" (by decide)

/-! ## `GET /dashboard/stats` (server.py lines 554-648)

The stats dict is literal-initialized with the keys `total`, the eleven
stage fields `applied` … `rejected` (no `ghosted`), `by_location`,
`by_work_mode` and `by_position`; `last_10_days` is only added after the
loop.  The loop's `if status in stats: stats[status] += 1` therefore also
matches the non-stage keys: a status string `"total"` increments the
`total` counter, and a status naming one of the three dict-valued keys
makes `dict += 1` raise `TypeError` (modelled as `Except.error`). -/

/-- A job document as fetched for the stats endpoint (projection of
server.py lines 557-567); `location` is flattened to its two fields, and
`created_at` is pre-parsed to UTC seconds.  A stored `null` string field
behaves like `""` (both falsy), so it is modelled as `some ""`. -/
structure DJob where
  status : Option String := none
  position : Option String := none
  location_city : Option String := none
  location_state : Option String := none
  work_mode : Option String := none
  created_at : Option Int := none
deriving Repr, DecidableEq

/-- The eleven per-stage counter fields of the stats dict (lines 571-581). -/
def stageFields : List String :=
  ["applied", "recruiter_screening", "phone_screen", "coding_round_1",
   "coding_round_2", "system_design", "behavioural", "hiring_manager",
   "final_round", "offer", "rejected"]

/-- The dashboard stats object (lines 569-589 plus `last_10_days`). -/
structure DashStats where
  total : Nat
  stage : String → Nat
  by_location : List (String × Nat)
  by_work_mode : String → Nat
  by_position : List (String × Nat)
  last_10_days : Nat

/-- `if status in stats: stats[status] += 1` (lines 610-611), split by the
value type behind each key of the dict literal. -/
def bumpStatus (st : DashStats) (status : String) : Except Unit DashStats :=
  if status ∈ stageFields then
    .ok { st with stage := fun k => if k = status then st.stage k + 1 else st.stage k }
  else if status = "total" then .ok { st with total := st.total + 1 }
  else if status = "by_location" ∨ status = "by_work_mode" ∨ status = "by_position" then
    .error ()
  else .ok st

/-- The 50-state name → abbreviation table (server.py lines 592-603). -/
def stateAbbr : List (String × String) :=
  [("Alabama", "AL"), ("Alaska", "AK"), ("Arizona", "AZ"), ("Arkansas", "AR"),
   ("California", "CA"), ("Colorado", "CO"), ("Connecticut", "CT"), ("Delaware", "DE"),
   ("Florida", "FL"), ("Georgia", "GA"), ("Hawaii", "HI"), ("Idaho", "ID"),
   ("Illinois", "IL"), ("Indiana", "IN"), ("Iowa", "IA"), ("Kansas", "KS"),
   ("Kentucky", "KY"), ("Louisiana", "LA"), ("Maine", "ME"), ("Maryland", "MD"),
   ("Massachusetts", "MA"), ("Michigan", "MI"), ("Minnesota", "MN"), ("Mississippi", "MS"),
   ("Missouri", "MO"), ("Montana", "MT"), ("Nebraska", "NE"), ("Nevada", "NV"),
   ("New Hampshire", "NH"), ("New Jersey", "NJ"), ("New Mexico", "NM"), ("New York", "NY"),
   ("North Carolina", "NC"), ("North Dakota", "ND"), ("Ohio", "OH"), ("Oklahoma", "OK"),
   ("Oregon", "OR"), ("Pennsylvania", "PA"), ("Rhode Island", "RI"), ("South Carolina", "SC"),
   ("South Dakota", "SD"), ("Tennessee", "TN"), ("Texas", "TX"), ("Utah", "UT"),
   ("Vermont", "VT"), ("Virginia", "VA"), ("Washington", "WA"), ("West Virginia", "WV"),
   ("Wisconsin", "WI"), ("Wyoming", "WY")]

/-- `state[:2].upper() if len(state) >= 2 else state`. -/
def upper2 (s : String) : String :=
  if 2 ≤ s.length then ⟨(s.data.take 2).map Char.toUpper⟩ else s

/-- `state_abbr.get(state, fallback)` (line 625). -/
def stateShort (state : String) : String :=
  ((stateAbbr.find? (fun e => e.1 = state)).map (fun e => e.2)).getD (upper2 state)

/-- Python `str.lower()` for the `work_mode` normalization (line 633). -/
def toLowerStr (s : String) : String := ⟨s.data.map Char.toLower⟩

/-- The non-status part of the loop body (lines 613-644): position,
location, work mode and recent-count aggregation, which touch neither
`total` nor the stage counters. -/
def dashRest (now : Int) (st : DashStats) (j : DJob) : DashStats :=
  let position := j.position.getD "Other"
  let st := if position ≠ "" then { st with by_position := bumpAssoc st.by_position position }
            else st
  let city := j.location_city.getD "Unknown"
  let state := j.location_state.getD "Unknown"
  let st := { st with by_location := bumpAssoc st.by_location (city ++ ", " ++ stateShort state) }
  let wm := toLowerStr (j.work_mode.getD "")
  let st := if wm = "remote" ∨ wm = "onsite" ∨ wm = "hybrid" then
      { st with by_work_mode := fun k => if k = wm then st.by_work_mode k + 1 else st.by_work_mode k }
    else st
  match j.created_at with
  | some t => if now - 10 * 86400 ≤ t then { st with last_10_days := st.last_10_days + 1 } else st
  | none => st

/-- One loop iteration (lines 608-644): the status bump may raise. -/
def processDashJob (now : Int) (st : DashStats) (j : DJob) : Except Unit DashStats :=
  match bumpStatus st (j.status.getD "applied") with
  | .error e => .error e
  | .ok st1 => .ok (dashRest now st1 j)

/-- The loop over the fetched jobs, propagating a raised `TypeError`. -/
def dashLoop (now : Int) : List DJob → DashStats → Except Unit DashStats
  | [], st => .ok st
  | j :: t, st =>
    match processDashJob now st j with
    | .error e => .error e
    | .ok st1 => dashLoop now t st1

/-- `GET /dashboard/stats` (server.py lines 554-648) over the up-to-1000
fetched documents. -/
def getDashboardStats (jobs : List DJob) (now : Int) : Except Unit DashStats :=
  dashLoop now (jobs.take 1000)
    { total := (jobs.take 1000).length, stage := fun _ => 0, by_location := [],
      by_work_mode := fun _ => 0, by_position := [], last_10_days := 0 }

/-- A job whose status string collides with the `total` key. -/
def totalStatusJob : DJob := { status := some "total" }

/-- **C10, counterexample.**  A single job whose status string is
`"total"` — outside the per-stage field set — does not merely count into
`total` via `len(jobs)`: the loop's `if status in stats` also matches the
`total` key and increments it again, returning `total = 2` for one job;
and a status `"by_location"` raises a `TypeError` instead of returning. -/
theorem dashboard_total_key_double_counted :
    ((getDashboardStats [totalStatusJob] 0).toOption.map DashStats.total) = some 2 ∧
    [totalStatusJob].length = 1 ∧
    (getDashboardStats [{ status := some "by_location" }] 0).isOk = false := by
  refine ⟨by decide, rfl, by decide⟩

theorem total_dashRest (now : Int) (st : DashStats) (j : DJob) :
    (dashRest now st j).total = st.total := by
  unfold dashRest
  dsimp only
  (repeat' split) <;> rfl

theorem stage_dashRest (now : Int) (st : DashStats) (j : DJob) :
    (dashRest now st j).stage = st.stage := by
  unfold dashRest
  dsimp only
  (repeat' split) <;> rfl

theorem dashLoop_spec (now : Int) (jobs : List DJob) (st : DashStats)
    (h : ∀ j ∈ jobs, j.status.getD "applied" ∉ ["by_location", "by_work_mode", "by_position"]) :
    ∃ st', dashLoop now jobs st = .ok st' ∧
      st'.total = st.total + jobs.countP (fun j => j.status.getD "applied" = "total") ∧
      ∀ k, k ∈ stageFields → st'.stage k =
        st.stage k + jobs.countP (fun j => j.status.getD "applied" = k) := by
  induction jobs generalizing st with
  | nil => exact ⟨st, rfl, by simp, fun k _ => by simp⟩
  | cons j t ih =>
    have hj := h j (List.mem_cons_self j t)
    have hok : ∃ st1, bumpStatus st (j.status.getD "applied") = .ok st1 ∧
        st1.total = st.total + (if j.status.getD "applied" = "total" then 1 else 0) ∧
        ∀ k, k ∈ stageFields → st1.stage k =
          st.stage k + (if j.status.getD "applied" = k then 1 else 0) := by
      unfold bumpStatus
      by_cases hs : j.status.getD "applied" ∈ stageFields
      · rw [if_pos hs]
        refine ⟨_, rfl, ?_, ?_⟩
        · have : ¬ j.status.getD "applied" = "total" := by
            intro hc
            rw [hc] at hs
            exact absurd hs (by decide)
          simp [this]
        · intro k hk
          dsimp only
          by_cases hek : k = j.status.getD "applied"
          · rw [if_pos hek, if_pos hek.symm]
          · rw [if_neg hek, if_neg (fun hc => hek hc.symm)]
            simp
      · rw [if_neg hs]
        by_cases ht : j.status.getD "applied" = "total"
        · rw [if_pos ht]
          refine ⟨_, rfl, by simp [ht], ?_⟩
          intro k hk
          have : ¬ j.status.getD "applied" = k := by
            intro hc
            rw [← hc] at hk
            rw [ht] at hk
            exact absurd hk (by decide)
          simp [this]
        · rw [if_neg ht]
          rw [if_neg (by simpa using hj)]
          refine ⟨st, rfl, by simp [ht], ?_⟩
          intro k hk
          have : ¬ j.status.getD "applied" = k := fun hc => hs (hc ▸ hk)
          simp [this]
    obtain ⟨st1, hb, htot, hstage⟩ := hok
    obtain ⟨st', hloop, htot', hstage'⟩ := ih (dashRest now st1 j) (fun x hx => h x (List.mem_cons_of_mem _ hx))
    refine ⟨st', ?_, ?_, ?_⟩
    · unfold dashLoop processDashJob
      rw [hb]
      exact hloop
    · rw [htot', total_dashRest, htot, List.countP_cons]
      by_cases hc : j.status.getD "applied" = "total"
      · simp [hc]
        all_goals omega
      · simp [hc]
    · intro k hk
      rw [hstage' k hk, stage_dashRest, hstage k hk, List.countP_cons]
      by_cases hc : j.status.getD "applied" = k
      · simp [hc]
        all_goals omega
      · simp [hc]

/-- **C10, amended.**  The stats object has per-stage fields only for
`applied` … `rejected` and none for `ghosted`; when no job's status
collides with the three dict-valued keys (which would raise `TypeError`),
the endpoint returns, each stage field counts exactly the jobs with that
effective status (an absent status counting as `applied`), a `ghosted` or
other unknown status increments no stage field while still counting into
`total` via `len(jobs)` — but a status equal to the `total` key increments
`total` a second time. -/
theorem getDashboardStats_spec (jobs : List DJob) (now : Int)
    (h : ∀ j ∈ jobs, j.status.getD "applied" ∉ ["by_location", "by_work_mode", "by_position"]) :
    ∃ st', getDashboardStats jobs now = .ok st' ∧
      st'.total = (jobs.take 1000).length +
        (jobs.take 1000).countP (fun j => j.status.getD "applied" = "total") ∧
      ∀ k, k ∈ stageFields → st'.stage k =
        (jobs.take 1000).countP (fun j => j.status.getD "applied" = k) := by
  obtain ⟨st', hloop, htot, hstage⟩ :=
    dashLoop_spec now (jobs.take 1000)
      { total := (jobs.take 1000).length, stage := fun _ => 0, by_location := [],
        by_work_mode := fun _ => 0, by_position := [], last_10_days := 0 }
      (fun j hj => h j (List.mem_of_mem_take hj))
  exact ⟨st', hloop, htot, fun k hk => by rw [hstage k hk]; simp⟩

/-- **C10, witness**: one `ghosted` job and one with no status — the
endpoint returns, `total` is 2, `applied` counts the status-less job and
no stage field counts the `ghosted` one. -/
theorem getDashboardStats_spec_witness :
    ∃ st', getDashboardStats [{ status := some "ghosted" }, { }] 0 = .ok st' ∧
      st'.total = ([({ status := some "ghosted" } : DJob), { }].take 1000).length +
        ([({ status := some "ghosted" } : DJob), { }].take 1000).countP
          (fun j => j.status.getD "applied" = "total") ∧
      ∀ k, k ∈ stageFields → st'.stage k =
        ([({ status := some "ghosted" } : DJob), { }].take 1000).countP
          (fun j => j.status.getD "applied" = k) :=
  getDashboardStats_spec [{ status := some "ghosted" }, { }] 0 (by decide)

/-! ## The monthly report: `POST /reports/generate/monthly`
(server.py lines 1911-1919 and 1991-2065) and the top-companies
computation of `get_monthly_email_summary` (lines 1676-1681)

Python float arithmetic on the rates and averages is modelled by exact
rationals; `round(x, 1)` is round-half-even at one decimal. -/

/-- A job document as consumed by the report computations; `salary_range`
is `none` for an absent or empty dict (both falsy at line 2004), else the
`(min, max)` pair with the dict's 0 defaults applied. -/
structure RJob where
  status : Option String := none
  work_mode : Option String := none
  company_name : Option String := none
  salary_range : Option (Int × Int) := none
deriving Repr, DecidableEq

/-- Round a rational to the nearest integer, ties to even — the rounding
of Python's `round` and float formatting. -/
def rheQ (x : ℚ) : ℤ :=
  if Int.fract x < 1 / 2 then ⌊x⌋
  else if (1 / 2 : ℚ) < Int.fract x then ⌊x⌋ + 1
  else if ⌊x⌋ % 2 = 0 then ⌊x⌋ else ⌊x⌋ + 1

/-- Python `round(q, 1)` on an exact rational. -/
def ratRound1 (q : ℚ) : ℚ := (rheQ (q * 10) : ℚ) / 10

/-- `status_counts` of the monthly branch (server.py line 2001), an
insertion-ordered dict keyed by `job.get("status", "applied")`. -/
def monthlyStatusCounts (jobs : List RJob) : List (String × Nat) :=
  jobs.foldl (fun acc j => bumpAssoc acc (j.status.getD "applied")) []

/-- `work_mode_counts` (line 2002), keyed by `job.get("work_mode", "unknown")`. -/
def monthlyWorkModeCounts (jobs : List RJob) : List (String × Nat) :=
  jobs.foldl (fun acc j => bumpAssoc acc (j.work_mode.getD "unknown")) []

/-- `salaries` (line 2004): the salary dicts of the jobs with a truthy
`salary_range`. -/
def monthlySalaries (jobs : List RJob) : List (Int × Int) :=
  jobs.filterMap (fun j => j.salary_range)

/-- `avg_min` (line 2005): 0 when no job has a salary range. -/
def avgMinSalary (jobs : List RJob) : ℚ :=
  if monthlySalaries jobs = [] then 0
  else ((monthlySalaries jobs).map (fun s => (s.1 : ℚ))).sum / (monthlySalaries jobs).length

/-- `avg_max` (line 2006). -/
def avgMaxSalary (jobs : List RJob) : ℚ :=
  if monthlySalaries jobs = [] then 0
  else ((monthlySalaries jobs).map (fun s => (s.2 : ℚ))).sum / (monthlySalaries jobs).length

/-- `response_rate` (line 2009): the share of jobs whose raw `status` is
not `"applied"` (an absent status counts as a response here, because the
code uses `j.get("status")` without a default), as a percentage rounded
to one decimal; 0 for an empty job list. -/
def responseRate (jobs : List RJob) : ℚ :=
  if jobs.length = 0 then ratRound1 0
  else ratRound1 ((jobs.countP (fun j => !(j.status == some "applied")) : ℚ)
    / jobs.length * 100)

/-- Spec-side definition for comparison (claim C8): the unrounded
`response_rate = (jobs with status != 'applied') / total * 100`. -/
def responseRateSpec (jobs : List RJob) : ℚ :=
  if jobs.length = 0 then 0
  else ((jobs.countP (fun j => !(j.status == some "applied")) : ℚ) / jobs.length) * 100

/-- `follow_ups` of the monthly branch (line 2008): raw status equal to
`"applied"`. -/
def monthlyFollowUps (jobs : List RJob) : List RJob :=
  jobs.filter (fun j => j.status == some "applied")

/-- The monthly report's computed payload (server.py lines 1997-2050):
everything the branch derives from the fetched jobs.  There is no
top-companies computation anywhere in this branch. -/
structure MonthlyReport where
  total_applications : Nat
  status_counts : List (String × Nat)
  work_mode_counts : List (String × Nat)
  avg_min : ℚ
  avg_max : ℚ
  follow_ups : List RJob
  response_rate : ℚ
deriving Repr, DecidableEq

/-- The monthly branch of `generate_report` over the up-to-1000 fetched
jobs (line 1919). -/
def generateMonthlyReport (jobs0 : List RJob) : MonthlyReport :=
  let jobs := jobs0.take 1000
  { total_applications := jobs.length,
    status_counts := monthlyStatusCounts jobs,
    work_mode_counts := monthlyWorkModeCounts jobs,
    avg_min := avgMinSalary jobs,
    avg_max := avgMaxSalary jobs,
    follow_ups := monthlyFollowUps jobs,
    response_rate := responseRate jobs }

/-- The keys of the persisted `stats` snapshot dict literal of the monthly
branch (server.py line 2050). -/
def monthlyStatsKeys : List String :=
  ["total_applications", "status_counts", "work_mode_counts", "response_rate"]

/-- The section headings of the monthly report's HTML `content` template
(the `<h1>`/`<h2>` texts of server.py lines 2013-2048). -/
def monthlyContentHeadings : List String :=
  ["📊 Monthly Job Search Report", "📈 Monthly Overview", "📊 Status Breakdown",
   "🏢 Work Mode Distribution", "💰 Salary Insights", "⏰ Follow-up Reminders"]

/-- Ordering of `sorted(company_counts.items(), key=lambda x: x[1],
reverse=True)` (line 1681): descending count, stable. -/
def ccLE (a b : String × Nat) : Prop := b.2 ≤ a.2

instance : DecidableRel ccLE := fun a b => inferInstanceAs (Decidable (b.2 ≤ a.2))

instance : IsTotal (String × Nat) ccLE := ⟨fun a b => le_total b.2 a.2⟩

instance : IsTrans (String × Nat) ccLE := ⟨fun _ _ _ h1 h2 => le_trans h2 h1⟩

/-- `company_counts` of `get_monthly_email_summary` (lines 1677-1680). -/
def emailCompanyCounts (jobs : List RJob) : List (String × Nat) :=
  jobs.foldl (fun acc j => bumpAssoc acc (j.company_name.getD "Unknown")) []

/-- `top_companies` of `get_monthly_email_summary` (line 1681): the five
most-applied-to companies — this lives in the email summary endpoint, not
in `generate_report`. -/
def monthlyEmailTopCompanies (jobs0 : List RJob) : List (String × Nat) :=
  ((emailCompanyCounts (jobs0.take 1000)).insertionSort ccLE).take 5

/-! ### Rounding facts and the response-rate theorems (claim C8) -/

theorem rheQ_intCast (n : ℤ) : rheQ (n : ℚ) = n := by
  unfold rheQ
  rw [Int.fract_intCast, if_pos (by norm_num), Int.floor_intCast]

theorem rheQ_eq_add_one_of (x : ℚ) (n : ℤ) (hfl : ⌊x⌋ = n) (hfr : (1 / 2 : ℚ) < Int.fract x) :
    rheQ x = n + 1 := by
  unfold rheQ
  rw [if_neg (by linarith), if_pos hfr, hfl]

theorem abs_rheQ_sub_le (x : ℚ) : |(rheQ x : ℚ) - x| ≤ 1 / 2 := by
  have h0 : (0 : ℚ) ≤ Int.fract x := Int.fract_nonneg x
  have h1 : Int.fract x < 1 := Int.fract_lt_one x
  have hf : x - ⌊x⌋ = Int.fract x := Int.self_sub_floor x
  unfold rheQ
  split
  · rename_i h
    rw [abs_le]
    constructor <;> linarith
  · split
    · rename_i h h'
      rw [abs_le]
      push_cast
      constructor <;> linarith
    · split
      · rename_i h h' h''
        rw [abs_le]
        constructor <;> linarith [le_of_not_lt h]
      · rename_i h h' h''
        rw [abs_le]
        push_cast
        constructor <;> linarith [le_of_not_lt h']

theorem abs_ratRound1_sub_le (q : ℚ) : |ratRound1 q - q| ≤ 1 / 20 := by
  unfold ratRound1
  have h := abs_rheQ_sub_le (q * 10)
  rw [abs_le] at *
  obtain ⟨ha, hb⟩ := h
  constructor <;> linarith

/-- Three jobs, one of them `applied`. -/
def c8Jobs3 : List RJob :=
  [{ status := some "applied" }, { status := some "offer" }, { status := some "rejected" }]

/-- Ten jobs, four `applied` and six in other statuses. -/
def c8Jobs10 : List RJob :=
  [{ status := some "applied" }, { status := some "applied" },
   { status := some "applied" }, { status := some "applied" },
   { status := some "offer" }, { status := some "rejected" },
   { status := some "phone_screen" }, { status := some "ghosted" },
   { status := some "system_design" }, { status := some "behavioural" }]

/-- **C8, counterexample.**  For three jobs of which one is `applied` the
exact ratio is `200/3 = 66.666…`, but line 2009 rounds to one decimal:
the report stores `66.7`, so `response_rate` does not equal
`(non-applied)/total*100` for every job list. -/
theorem responseRate_rounds :
    responseRate c8Jobs3 = 667 / 10 ∧ responseRateSpec c8Jobs3 = 200 / 3 ∧
    responseRate c8Jobs3 ≠ responseRateSpec c8Jobs3 := by
  have hc : c8Jobs3.countP (fun j => !(j.status == some "applied")) = 2 := by decide
  have hl : c8Jobs3.length = 3 := rfl
  have hval : ((c8Jobs3.countP (fun j => !(j.status == some "applied")) : ℚ)
      / c8Jobs3.length * 100) = 200 / 3 := by
    rw [hc, hl]
    norm_num
  have hrate : responseRate c8Jobs3 = 667 / 10 := by
    unfold responseRate
    rw [if_neg (by rw [hl]; omega), hval]
    unfold ratRound1
    have h200 : (200 / 3 : ℚ) * 10 = 2000 / 3 := by norm_num
    have hfl : ⌊(2000 / 3 : ℚ)⌋ = 666 := by
      rw [Int.floor_eq_iff]
      norm_num
    have hfr : (1 / 2 : ℚ) < Int.fract (2000 / 3 : ℚ) := by
      rw [← Int.self_sub_floor, hfl]
      norm_num
    rw [h200, rheQ_eq_add_one_of _ 666 hfl hfr]
    norm_num
  refine ⟨hrate, ?_, ?_⟩
  · unfold responseRateSpec
    rw [if_neg (by rw [hl]; omega), hval]
  · rw [hrate]
    unfold responseRateSpec
    rw [if_neg (by rw [hl]; omega), hval]
    norm_num

/-- **C8, amended.**  `response_rate` equals the claim's ratio rounded to
one decimal (round-half-even), hence always within `1/20` of the exact
value; the 10-jobs-4-applied scenario still yields exactly `60.0`, and the
empty job list yields `0` rather than a division error. -/
theorem responseRate_rounded_spec :
    (∀ jobs : List RJob, |responseRate jobs - responseRateSpec jobs| ≤ 1 / 20) ∧
    responseRate c8Jobs10 = 60 ∧
    responseRate [] = 0 := by
  have hzero : ratRound1 0 = 0 := by
    unfold ratRound1
    have h0 : ((0 : ℚ) * 10) = ((0 : ℤ) : ℚ) := by norm_num
    rw [h0, rheQ_intCast]
    norm_num
  refine ⟨?_, ?_, ?_⟩
  · intro jobs
    unfold responseRate responseRateSpec
    by_cases h : jobs.length = 0
    · rw [if_pos h, if_pos h, hzero]
      norm_num
    · rw [if_neg h, if_neg h]
      exact abs_ratRound1_sub_le _
  · have hc : c8Jobs10.countP (fun j => !(j.status == some "applied")) = 6 := by decide
    have hl : c8Jobs10.length = 10 := rfl
    unfold responseRate
    rw [if_neg (by rw [hl]; omega), hc, hl]
    have hval : (((6 : Nat) : ℚ) / ((10 : Nat) : ℚ) * 100) = 60 := by norm_num
    rw [hval]
    unfold ratRound1
    have h600 : ((60 : ℚ) * 10) = ((600 : ℤ) : ℚ) := by norm_num
    rw [h600, rheQ_intCast]
    norm_num
  · unfold responseRate
    rw [if_pos (show ([] : List RJob).length = 0 from rfl), hzero]

/-! ### The monthly-report theorems (claim C9) -/

theorem succCount_foldl_keys (f : RJob → String) (l : List RJob)
    (acc : List (String × Nat)) (k : String) :
    succCount (l.foldl (fun a j => bumpAssoc a (f j)) acc) k =
      succCount acc k + l.countP (fun j => f j = k) := by
  induction l generalizing acc with
  | nil => simp
  | cons j t ih =>
    rw [List.foldl_cons, ih, succCount_bumpAssoc, List.countP_cons]
    by_cases hc : f j = k
    · simp [hc]
      omega
    · simp [hc]

/-- **C9, counterexample.**  The monthly report produced by
`generate_report` carries no top-5-companies data: the persisted stats
snapshot's keys are exactly the four of line 2050 (no `top_companies`),
none of the content template's section headings is a top-companies
section, and the top-5 computation lives in `get_monthly_email_summary`
(line 1681) instead — shown here producing its list for a one-job input
that the report ignores. -/
theorem monthlyReport_no_top_companies :
    "top_companies" ∉ monthlyStatsKeys ∧
    monthlyStatsKeys = ["total_applications", "status_counts", "work_mode_counts",
      "response_rate"] ∧
    monthlyContentHeadings.all (fun h => !(h == "🏆 TOP COMPANIES APPLIED TO")) = true ∧
    monthlyEmailTopCompanies [{ company_name := some "Acme" }] = [("Acme", 1)] := by
  refine ⟨by decide, rfl, by decide, by decide⟩

/-- **C9, amended.**  The monthly report computes full-history status and
work-mode counts over the fetched jobs, salary averages over exactly the
jobs with a `salary_range` (appending a job without one changes neither
average), and the response rate — but no top-companies list: that is the
monthly *email summary*'s computation, which yields at most five entries
sorted by descending application count. -/
theorem generateMonthlyReport_spec (jobs : List RJob) (j0 : RJob)
    (h0 : j0.salary_range = none) :
    (∀ k, succCount (generateMonthlyReport jobs).status_counts k =
      (jobs.take 1000).countP (fun j => j.status.getD "applied" = k)) ∧
    (∀ k, succCount (generateMonthlyReport jobs).work_mode_counts k =
      (jobs.take 1000).countP (fun j => j.work_mode.getD "unknown" = k)) ∧
    avgMinSalary (jobs ++ [j0]) = avgMinSalary jobs ∧
    avgMaxSalary (jobs ++ [j0]) = avgMaxSalary jobs ∧
    (monthlyEmailTopCompanies jobs).length ≤ 5 ∧
    (monthlyEmailTopCompanies jobs).Sorted ccLE ∧
    "top_companies" ∉ monthlyStatsKeys := by
  have hsal : monthlySalaries (jobs ++ [j0]) = monthlySalaries jobs := by
    unfold monthlySalaries
    rw [List.filterMap_append]
    simp [h0]
  refine ⟨?_, ?_, ?_, ?_, ?_, ?_, by decide⟩
  · intro k
    unfold generateMonthlyReport monthlyStatusCounts
    dsimp only
    rw [succCount_foldl_keys]
    simp [succCount]
  · intro k
    unfold generateMonthlyReport monthlyWorkModeCounts
    dsimp only
    rw [succCount_foldl_keys]
    simp [succCount]
  · unfold avgMinSalary
    rw [hsal]
  · unfold avgMaxSalary
    rw [hsal]
  · exact List.length_take_le _ _
  · exact ((List.sorted_insertionSort ccLE _).sublist (List.take_sublist _ _))

/-- **C9, witness**: appending a job without a salary range to a one-job
list leaves the average minimum salary unchanged. -/
theorem generateMonthlyReport_spec_witness :
    avgMinSalary ([({ salary_range := some (100, 200) } : RJob)] ++
        [({ salary_range := none } : RJob)]) =
      avgMinSalary [({ salary_range := some (100, 200) } : RJob)] :=
  (generateMonthlyReport_spec [{ salary_range := some (100, 200) }]
    { salary_range := none } rfl).2.2.1

/-! ## AgingAnalyzer (claim C6)

The repository's own test suite (src/backend_test.py, the `GET /api/jobs`
check) expects per-job `total_business_days_aging` and
`stage_business_days_aging` fields, and the spec's §4.3 describes a
critical/warning/healthy aging classifier — but no revision of that code
is present under src/: the checked-in server has no aging classification.
The component is therefore modelled from the spec and the claim is
settled against the model. -/

/-- Modelled from the spec: §4.3 AgingAnalyzer's threshold classification,
absent from src/backend/server.py.  Applied only to non-terminal statuses
(excluding `offer`, `rejected`, `ghosted`): `critical` when
`business_days_old >= 20` and the status is an early stage (`applied` or
`recruiter_screening`); `warning` when `business_days_old >= 10` and the
status is `applied`, `recruiter_screening` or `phone_screen`; otherwise
`healthy`. -/
def agingClassification (status : String) (bizDaysOld : Nat) : Option String :=
  if status = "offer" ∨ status = "rejected" ∨ status = "ghosted" then none
  else if 20 ≤ bizDaysOld ∧ (status = "applied" ∨ status = "recruiter_screening") then
    some "critical"
  else if 10 ≤ bizDaysOld ∧ (status = "applied" ∨ status = "recruiter_screening" ∨
      status = "phone_screen") then some "warning"
  else some "healthy"

/-- Modelled from the spec: §4.3's stalled-in-early-stage predicate —
status in {`applied`, `recruiter_screening`} and at least 15 business
days old. -/
def stalledEarlyStage (status : String) (bizDaysOld : Nat) : Bool :=
  decide ((status = "applied" ∨ status = "recruiter_screening") ∧ 15 ≤ bizDaysOld)

/-- Modelled from the spec: the stalled-pipeline warning of §2/§8 is
produced whenever some job (given as a status with its business-day age)
is stalled in an early stage. -/
def stalledWarningEmitted (jobs : List (String × Nat)) : Bool :=
  jobs.any (fun j => stalledEarlyStage j.1 j.2)

/-- The §8 scenario: three non-priority jobs, all `applied`, applied 25
business days ago. -/
def stalledScenario : List (String × Nat) :=
  [("applied", 25), ("applied", 25), ("applied", 25)]

/-- **C6** (spec-modelled).  Every non-terminal job in status `applied` or
`recruiter_screening` with at least 20 business days of age classifies as
`critical`; in the spec's stalled-pipeline scenario all three records are
critical and the staleness warning is produced. -/
theorem agingCritical_spec :
    (∀ status bizDaysOld, (status = "applied" ∨ status = "recruiter_screening") →
      20 ≤ bizDaysOld → agingClassification status bizDaysOld = some "critical") ∧
    stalledScenario.all (fun j => agingClassification j.1 j.2 == some "critical") = true ∧
    stalledWarningEmitted stalledScenario = true := by
  refine ⟨?_, by decide, by decide⟩
  intro status b hs h20
  rcases hs with rfl | rfl <;> simp [agingClassification, h20]

/-- **C6, witness** at a concrete record: an `applied` job 25 business
days old is classified `critical`. -/
theorem agingCritical_spec_witness :
    agingClassification "applied" 25 = some "critical" :=
  agingCritical_spec.1 "applied" 25 (Or.inl rfl) (by decide)

end ApplyStage
